import Mathlib

/-!
Verification development for the Cauldron recipe pipeline.

This file gives a shallow embedding, in Lean 4, of the parts of the
repository that the checked claims are about:

* `tools/recipe_schema_lab/lab_recipe.py` — the recipe assembler
  (`_assemble_app_recipe`) together with its linguistic helpers
  (ingredient parsing, step splitting, timer extraction, …);
* `tools/recipe_schema_model/schema_model.py` — the rule engine,
  the naive-Bayes wrapper `predict_with_confidence`, the sequential
  prediction pass `run_predictions`, and `split_docs_for_holdout`;
* `tools/recipe_schema_model/regression_metrics.py` — the regression
  harness exit-code logic;
* `tools/recipe_schema_lab/lab_handler.py` — the retrain lifecycle
  (`_retrain_model`), modelled as a state machine over an abstract
  file store.

Conventions of the embedding:

* Python `float` arithmetic is modelled with exact rationals (`ℚ`);
  `round(x, 4)` is modelled by `pyRound4` (round half to even).
* Python strings are Lean `String`s; the handful of `re` patterns the
  embedded code uses are interpreted by a small backtracking matcher
  (`RE`, `reM`) that follows Python's leftmost/greedy semantics.
  Literals are matched case-insensitively (every reachable pattern with
  letter literals is compiled with `re.IGNORECASE` or applied to
  lowercased text); character classes are explicit predicates.
* Library calls that are not part of this repository are modelled by
  their behaviour on the inputs the claims concern: `html.unescape` is
  the identity on entity-free text, `hashlib.sha256`-based bucketing is
  abstracted as a function argument, and `urlparse(...).netloc` is a
  direct net-location extractor.
-/

namespace Cauldron

/-- Python `\s` / `str.isspace` for the ASCII range used by the fixtures. -/
def pyIsSpace (c : Char) : Bool :=
  c = ' ' || c = '\t' || c = '\n' || c = '\x0d' || c = '\x0b' || c = '\x0c'

/-- ASCII decimal digit. -/
def isDigitCh (c : Char) : Bool := '0' ≤ c && c ≤ '9'

/-- ASCII letter. -/
def isAlphaCh (c : Char) : Bool := ('a' ≤ c && c ≤ 'z') || ('A' ≤ c && c ≤ 'Z')

/-- Python `\w` (ASCII): letter, digit or underscore. -/
def isWordCh (c : Char) : Bool := isAlphaCh c || isDigitCh c || c = '_'

/-- ASCII lowercasing, as Python `str.lower` acts on the ASCII range. -/
def lowerCh (c : Char) : Char :=
  if 'A' ≤ c && c ≤ 'Z' then Char.ofNat (c.toNat + 32) else c

/-- ASCII uppercasing. -/
def upperCh (c : Char) : Char :=
  if 'a' ≤ c && c ≤ 'z' then Char.ofNat (c.toNat - 32) else c

def lowerL (s : List Char) : List Char := s.map lowerCh

/-- Strip `pyIsSpace` characters from both ends (Python `str.strip()`). -/
def pyStripL (s : List Char) : List Char :=
  ((s.dropWhile pyIsSpace).reverse.dropWhile pyIsSpace).reverse

/-- Strip the characters of `cs` from both ends (Python `str.strip(chars)`). -/
def pyStripCharsL (cs : List Char) (s : List Char) : List Char :=
  ((s.dropWhile (cs.contains ·)).reverse.dropWhile (cs.contains ·)).reverse

/-- Replace every maximal run of whitespace by a single space
(`re.sub(r"\s+", " ", s)`); `inRun` tracks whether the current
character extends a whitespace run already emitted as one space. -/
def collapseWsAux : Bool → List Char → List Char
  | _, [] => []
  | inRun, c :: rest =>
    if pyIsSpace c then
      if inRun then collapseWsAux true rest
      else ' ' :: collapseWsAux true rest
    else c :: collapseWsAux false rest

def collapseWsL (s : List Char) : List Char := collapseWsAux false s

/-- Python `str.split()` (split on whitespace runs, dropping empties);
`acc` holds the reversed current token. -/
def pySplitAux (acc : List Char) : List Char → List (List Char)
  | [] => if acc.isEmpty then [] else [acc.reverse]
  | c :: rest =>
    if pyIsSpace c then
      if acc.isEmpty then pySplitAux [] rest
      else acc.reverse :: pySplitAux [] rest
    else pySplitAux (c :: acc) rest

def pySplitL (s : List Char) : List (List Char) := pySplitAux [] s

/-- Split a list into tokens separated by runs of characters satisfying `p`
(Python `re.split(r"[...]+", s)` with empties removed by the callers). -/
def splitRunsAux (p : Char → Bool) (acc : List Char) :
    List Char → List (List Char)
  | [] => if acc.isEmpty then [] else [acc.reverse]
  | c :: rest =>
    if p c then
      if acc.isEmpty then splitRunsAux p [] rest
      else acc.reverse :: splitRunsAux p [] rest
    else splitRunsAux p (c :: acc) rest

def splitRunsL (p : Char → Bool) (s : List Char) : List (List Char) :=
  splitRunsAux p [] s

/-- Substring containment (Python `needle in haystack`). -/
def containsSubL (needle : List Char) (hay : List Char) : Bool :=
  if needle.isPrefixOf hay then true
  else match hay with
    | [] => needle.isEmpty
    | _ :: rest => containsSubL needle rest

/-- Python `str.replace(old, new)` with non-overlapping left-to-right
occurrences (`old` is non-empty at every call site, so `s.length` fuel
always suffices: each step consumes at least one character). -/
def pyReplaceAux (old new : List Char) : ℕ → List Char → List Char
  | 0, s => s
  | _ + 1, [] => []
  | fuel + 1, c :: rest =>
    if old.isEmpty then c :: pyReplaceAux old new fuel rest
    else if old.isPrefixOf (c :: rest) then
      new ++ pyReplaceAux old new fuel ((c :: rest).drop old.length)
    else
      c :: pyReplaceAux old new fuel rest

def pyReplaceL (old new : List Char) (s : List Char) : List Char :=
  pyReplaceAux old new s.length s

/-- Parse a run of decimal digits as a natural number (`int(...)` on the
digit-only strings captured by the patterns below). -/
def digitsToNat (s : List Char) : ℕ :=
  s.foldl (fun acc c => acc * 10 + (c.toNat - '0'.toNat)) 0

/-- Word boundary (`\b`) between `left` (consumed text, reversed) and
`rest`: exactly one side is a word character. -/
def wordBoundary (left rest : List Char) : Bool :=
  let wl := match left with | [] => false | c :: _ => isWordCh c
  let wr := match rest with | [] => false | c :: _ => isWordCh c
  wl != wr

end Cauldron

namespace Cauldron

/-- Regular-expression fragments for the patterns used by the embedded
code.  `lit` matches its literal case-insensitively (see the file
header); character classes are explicit predicates; `star`/`plus` are
greedy single-character-class repetitions with backtracking, which is
the only shape of repetition the embedded patterns use. -/
inductive RE where
  | eps
  | cls (p : Char → Bool)
  | lit (s : List Char)
  | seq (a b : RE)
  | alt (a b : RE)
  | opt (a : RE)
  | star (p : Char → Bool)
  | plus (p : Char → Bool)
  | bound
  | behindIs (p : Char → Bool)
  | behindNot (p : Char → Bool)
  | ahead (a : RE)
  | grp (n : ℕ) (a : RE)
  | eos

/-- Association list of captured groups, most recent first. -/
abbrev Groups := List (ℕ × List Char)

/-- Try the continuation after consuming `i` characters (greedy: longest
first), for the repetition operators. -/
def starBack (left rest : List Char) (gs : Groups)
    (k : List Char → List Char → Groups → Option Groups) :
    ℕ → Option Groups
  | 0 => k left rest gs
  | i + 1 =>
    match k ((rest.take (i + 1)).reverse ++ left) (rest.drop (i + 1)) gs with
    | some r => some r
    | none => starBack left rest gs k i

/-- Case-insensitive literal consumption. -/
def litConsume (pat : List Char) (left rest : List Char) :
    Option (List Char × List Char) :=
  match pat, rest with
  | [], _ => some (left, rest)
  | _ :: _, [] => none
  | p :: ps, c :: cs =>
    if lowerCh c = lowerCh p then litConsume ps (c :: left) cs else none

/-- Backtracking matcher in continuation-passing style.  `left` holds the
already-consumed characters in reverse (for look-behind and `\b`), `rest`
the remaining input. -/
def reM : RE → List Char → List Char → Groups →
    (List Char → List Char → Groups → Option Groups) → Option Groups
  | .eps, left, rest, gs, k => k left rest gs
  | .cls p, left, rest, gs, k =>
    match rest with
    | [] => none
    | c :: cs => if p c then k (c :: left) cs gs else none
  | .lit s, left, rest, gs, k =>
    match litConsume s left rest with
    | some (l, r) => k l r gs
    | none => none
  | .seq a b, left, rest, gs, k =>
    reM a left rest gs (fun l r g => reM b l r g k)
  | .alt a b, left, rest, gs, k =>
    match reM a left rest gs k with
    | some r => some r
    | none => reM b left rest gs k
  | .opt a, left, rest, gs, k =>
    match reM a left rest gs k with
    | some r => some r
    | none => k left rest gs
  | .star p, left, rest, gs, k =>
    starBack left rest gs k (rest.takeWhile p).length
  | .plus p, left, rest, gs, k =>
    match rest with
    | [] => none
    | c :: cs =>
      if p c then starBack (c :: left) cs gs k (cs.takeWhile p).length
      else none
  | .bound, left, rest, gs, k =>
    if wordBoundary left rest then k left rest gs else none
  | .behindIs p, left, rest, gs, k =>
    match left with
    | [] => none
    | c :: _ => if p c then k left rest gs else none
  | .behindNot p, left, rest, gs, k =>
    match left with
    | [] => k left rest gs
    | c :: _ => if p c then none else k left rest gs
  | .ahead a, left, rest, gs, k =>
    match reM a left rest gs (fun _ _ g => some g) with
    | some g => k left rest g
    | none => none
  | .grp n a, left, rest, gs, k =>
    reM a left rest gs (fun l r g =>
      k l r ((n, (l.take (l.length - left.length)).reverse) :: g))
  | .eos, left, rest, gs, k =>
    match rest with
    | [] => k left rest gs
    | _ :: _ => none

/-- Anchored match at the start of `s` (Python `re.match`), returning the
captured groups. -/
def reMatch (r : RE) (s : List Char) : Option Groups :=
  reM r [] s [] (fun _ _ g => some g)

/-- Reserved group key used to smuggle the match-end position through
the `Groups`-valued continuation. -/
def endKey : ℕ := 999

/-- Anchored match also reporting the match end offset. -/
def reMatchEnd (r : RE) (left rest : List Char) : Option (ℕ × Groups) :=
  match reM r left rest [] (fun _ rr g => some ((endKey, rr) :: g)) with
  | some ((_, rr) :: g) => some (rest.length - rr.length, g)
  | _ => none

/-- Leftmost search (Python `re.search`): the first position where the
pattern matches, with the match span relative to the whole string. -/
def reSearchAux (r : RE) (left rest : List Char) (start : ℕ) :
    Option (ℕ × ℕ × Groups) :=
  match reMatchEnd r left rest with
  | some (len, g) => some (start, start + len, g)
  | none =>
    match rest with
    | [] => none
    | c :: cs => reSearchAux r (c :: left) cs (start + 1)

def reSearch (r : RE) (s : List Char) : Option (ℕ × ℕ × Groups) :=
  reSearchAux r [] s 0

/-- Non-overlapping leftmost matches (Python `re.finditer`); every pattern
this file iterates consumes at least one character, and fuel keeps the
definition total regardless. -/
def reFindAux (r : RE) (left rest : List Char) (start : ℕ) :
    ℕ → List (ℕ × ℕ × Groups)
  | 0 => []
  | fuel + 1 =>
    match reSearchAux r left rest start with
    | none => []
    | some (ms, me, g) =>
      let skip := me - start
      if skip = 0 then
        match rest with
        | [] => [(ms, me, g)]
        | c :: cs => (ms, me, g) :: reFindAux r (c :: left) cs (start + 1) fuel
      else
        let consumedRev := ((rest.take skip).reverse) ++ left
        (ms, me, g) :: reFindAux r consumedRev (rest.drop skip) me fuel

def reFinditer (r : RE) (s : List Char) : List (ℕ × ℕ × Groups) :=
  reFindAux r [] s 0 (s.length + 1)

/-- Group lookup: Python `match.group(n)`, `none` when the group did not
participate in the match. -/
def groupOf (gs : Groups) (n : ℕ) : Option (List Char) :=
  match gs.find? (fun p => p.1 = n) with
  | some p => some p.2
  | none => none

/-- Replace the whole tail of `s` from the first match of `r` on
(`re.sub(pattern-ending-in ".*$"`, repl, s)`). -/
def subFromSearch (r : RE) (repl : List Char) (s : List Char) : List Char :=
  match reSearch r s with
  | some (ms, _, _) => s.take ms ++ repl
  | none => s

/-- Global replacement of every match span (Python `re.sub`); the
patterns this is used for capture no groups in their replacements. -/
def reSubAll (r : RE) (repl : List Char) (s : List Char) : List Char :=
  let ms := reFinditer r s
  go 0 ms
where
  go (pos : ℕ) : List (ℕ × ℕ × Groups) → List Char
    | [] => s.drop pos
    | (a, b, _) :: rest =>
      ((s.drop pos).take (a - pos)) ++ repl ++ go b rest

end Cauldron

namespace Cauldron

/-! ### Shared character classes and pattern builders -/

def spCls : Char → Bool := pyIsSpace

/-- Python `.` (no DOTALL): any character except a newline. -/
def dotCls : Char → Bool := fun c => c ≠ '\n'

/-- The quantity-expression class `[\d\s½¼¾⅓⅔⅛⅜⅝⅞/\.-]` of
`lab_recipe._QUANTITY_EXPR`. -/
def qtyCls (c : Char) : Bool :=
  isDigitCh c || pyIsSpace c || fracGlyph c || c = '/' || c = '.' || c = '-'
where
  fracGlyph (c : Char) : Bool :=
    c = '½' || c = '¼' || c = '¾' || c = '⅓' || c = '⅔' ||
    c = '⅛' || c = '⅜' || c = '⅝' || c = '⅞'

/-- Unicode vulgar-fraction glyphs (keys of `UNICODE_FRACTIONS`). -/
def fracCls (c : Char) : Bool := qtyCls.fracGlyph c

def rlit (s : String) : RE := .lit s.toList

def rseq (l : List RE) : RE := l.foldr RE.seq .eps

def ralts : List RE → RE
  | [] => .eps
  | [r] => r
  | r :: rest => .alt r (ralts rest)

/-- Word alternation `\b(?:w₁|w₂|…)\b` searched anywhere in `s`
(boundary on both sides of the matched alternative). -/
def searchWordAlts (ws : List String) (s : List Char) : Bool :=
  (reSearch (rseq [.bound, ralts (ws.map rlit), .bound]) s).isSome

/-! ### `lab_recipe.py` — text cleaning and shape predicates -/

/-- Embedding of `_clean_text`: collapse whitespace runs and strip.
`html.unescape` is modelled as the identity (all claim inputs are
HTML-entity-free). -/
def cleanText (s : String) : String :=
  ⟨pyStripL (collapseWsL s.toList)⟩

def pyLower (s : String) : String := ⟨lowerL s.toList⟩

def pyStrip (s : String) : String := ⟨pyStripL s.toList⟩

/-- Embedding of `_split_numbered_steps`: split a collapsed
"1. … 2. …" string at the numbered markers `(?<!\d)(\d{1,2})\.\s+`,
provided at least two markers exist and the first is at position 0. -/
def splitNumberedSteps (text : String) : List String :=
  let cleaned := (cleanText text).toList
  if cleaned.isEmpty then []
  else
    let marks := reFinditer
      (rseq [.behindNot isDigitCh,
             .grp 1 (.seq (.cls isDigitCh) (.opt (.cls isDigitCh))),
             rlit ".", .plus spCls]) cleaned
    if marks.length < 2 || (marks.headD (1, 1, [])).1 ≠ 0 then [⟨cleaned⟩]
    else
      let bounds := marks.map (fun m => m.1)
      let parts := (List.range marks.length).filterMap (fun i =>
        let start := bounds.getD i 0
        let stop := bounds.getD (i + 1) cleaned.length
        let part := cleanText ⟨(cleaned.drop start).take (stop - start)⟩
        if part = "" then none else some part)
      if parts.isEmpty then [⟨cleaned⟩] else parts

/-- Embedding of `_strip_step_number_prefix`: drop leading bullet
glyphs, a leading `"<n>."`/`"<n>)"` numbering, then bullets again. -/
def stripStepNumberLead (text : String) : String :=
  let bullet : Char → Bool := fun c =>
    c = '•' || c = '·' || c = '▪' || c = '◦' || c = '●'
  let sub1 : List Char → List Char := fun s =>
    match reMatchEnd (rseq [.star spCls, .plus bullet, .star spCls]) [] s with
    | some (e, _) => s.drop e
    | none => s
  let sub2 : List Char → List Char := fun s =>
    match reMatchEnd
      (rseq [.star spCls, .cls isDigitCh, .opt (.cls isDigitCh), .star spCls,
             .cls (fun c => c = '.' || c = ')'), .star spCls]) [] s with
    | some (e, _) => s.drop e
    | none => s
  let cleaned := (cleanText text).toList
  if cleaned.isEmpty then ""
  else ⟨pyStripL (sub1 (pyStripL (sub2 (pyStripL (sub1 cleaned)))))⟩

/-- Embedding of `_header_key`: lowercase, strip surrounding
non-word characters, drop one trailing colon. -/
def headerKey (line : String) : String :=
  let lowered := lowerL (pyStripL line.toList)
  let lowered := ((lowered.dropWhile (fun c => !isWordCh c)).reverse.dropWhile
    (fun c => !isWordCh c)).reverse
  let lowered :=
    if lowered.getLast? = some ':' then pyStripL (lowered.dropLast) else lowered
  ⟨lowered⟩

/-- `INGREDIENT_HEADER_PREFIXES` from `lab_config.py`. -/
def ingredientHeaderKeys : List String :=
  ["ingredient", "ingredients", "for the ingredients", "what you\x27ll need"]

/-- `STEP_HEADER_PREFIXES` from `lab_config.py`. -/
def stepHeaderKeys : List String :=
  ["instruction", "instructions", "direction", "directions", "method",
   "preparation", "steps"]

/-- `NOTE_HEADER_PREFIXES` from `lab_config.py`. -/
def noteHeaderKeys : List String :=
  ["note", "notes", "tip", "tips", "variation", "variations",
   "chef\x27s note", "storage", "substitution", "substitutions"]

/-- Embedding of `_header_section_type`. -/
def headerSectionType (line : String) : Option String :=
  let key := headerKey line
  if ingredientHeaderKeys.contains key then some "ingredients"
  else if stepHeaderKeys.contains key then some "steps"
  else if noteHeaderKeys.contains key then some "notes"
  else none

/-- Embedding of `_looks_like_subsection_header`. -/
def looksLikeSubsectionHeader (line : String) : Bool :=
  let text := pyStripL line.toList
  if text.getLast? ≠ some ':' then false
  else
    let words := pySplitL (pyStripL text.dropLast)
    if !(0 < words.length && words.length ≤ 7) then false
    else if text.length > 90 then false
    else if text.any isDigitCh then false
    else true

/-- `_INSTRUCTION_KEYWORDS` from `lab_recipe.py`. -/
def instructionKeywords : List String :=
  ["add", "bake", "beat", "blend", "boil", "combine", "cook", "cool",
   "drain", "fold", "fry", "grill", "heat", "knead", "let", "marinate",
   "mix", "place", "pour", "preheat", "reduce", "rest", "roast", "saute",
   "season", "serve", "simmer", "stir", "transfer", "whisk"]

/-- Embedding of `_looks_like_ingredient_line`: the line starts with at
least one character of the quantity-expression class. -/
def looksLikeIngredientLine (line : String) : Bool :=
  match line.toList with
  | [] => false
  | c :: _ => qtyCls c

/-- Embedding of `_looks_like_headerless_instruction`. -/
def looksLikeHeaderlessInstruction (line : String) : Bool :=
  if looksLikeIngredientLine line then false
  else if splitNumberedSteps line ≠ [line] then true
  else
    let words := pySplitL (lowerL line.toList)
    match words with
    | [] => false
    | first :: _ =>
      let toks := (splitRunsL (fun c => !(('a' ≤ c && c ≤ 'z') || isDigitCh c))
        (lowerL line.toList)).filter (fun t => !t.isEmpty)
      if instructionKeywords.contains ⟨first⟩ then true
      else if ["in", "on", "to", "then", "meanwhile"].contains (⟨first⟩ : String)
          && toks.any (fun t => instructionKeywords.contains ⟨t⟩) then true
      else false

/-- Embedding of `_is_ocr_artifact_line`. -/
def isOcrArtifactLine (text : String) : Bool :=
  let cleaned := (cleanText text).toList
  if cleaned.isEmpty then true
  else
    let lowered := lowerL cleaned
    if containsSubL "templatelab".toList lowered
        || containsSubL "created by".toList lowered
        || lowered = "reated b".toList then true
    else if (reMatch (rseq [.star spCls,
        ralts [.seq (rlit "prep") (.opt (rlit "ping")), rlit "preparation",
               .seq (rlit "cook") (.opt (rlit "ing")), rlit "total"],
        .star spCls, rlit "tim", .opt (rlit "e"), .bound]) lowered).isSome then true
    else if cleaned.all (fun c => !isWordCh c || c = '_') then true
    else if (cleaned.filter isAlphaCh).length ≤ 1 then true
    else if cleaned.all isAlphaCh && cleaned.length ≤ 6
        && !(["salt", "zest", "oil", "rice", "egg", "eggs"].contains
              (⟨lowered⟩ : String)) then true
    else false

/-- Embedding of `_extract_tips_remainder`: `some remainder` when the
line carries a "tips and variations" marker, `some ""` when the line is
exactly such a marker, `none` otherwise. -/
def extractTipsRemainder (text : String) : Option String :=
  let cleaned := (cleanText text).toList
  if cleaned.isEmpty then none
  else
    let marker := rseq [.bound, rlit "tip", .opt (rlit "s"), .star spCls,
      .alt (rlit "and") (rlit "&"), .star spCls, rlit "variation",
      .opt (rlit "s"), .bound,
      .star (fun c => c = ':' || c = '-' || pyIsSpace c),
      .grp 1 (.star dotCls), .eos]
    match reSearch marker cleaned with
    | some (_, _, g) =>
      some (cleanText ⟨(groupOf g 1).getD []⟩)
    | none =>
      if (reMatch (rseq [rlit "tip", .opt (rlit "s"),
          .opt (rseq [.star spCls, .alt (rlit "and") (rlit "&"), .star spCls,
                      rlit "variation", .opt (rlit "s")]), .eos]) cleaned).isSome
      then some "" else none

/-- Embedding of `_normalize_note_text`. -/
def normalizeNoteText (text : String) : String :=
  let cleaned := (cleanText text).toList
  let cleaned := cleaned.dropWhile (fun c =>
    c = ',' || c = ';' || c = ':' || c = '-' || c = '•' || pyIsSpace c)
  cleanText ⟨cleaned⟩

/-- Embedding of `_looks_like_note_fragment`. -/
def looksLikeNoteFragment (text : String) : Bool :=
  let cleaned := (cleanText text).toList
  if cleaned.isEmpty then false
  else if looksLikeIngredientLine ⟨cleaned⟩ then false
  else if looksLikeHeaderlessInstruction ⟨cleaned⟩ then false
  else
    let lowered := lowerL cleaned
    match cleaned with
    | c :: _ =>
      if c = ',' || c = ';' || c = ':' then
        (pySplitL cleaned).length ≥ 2
      else
        let firstTok := lowerL (cleaned.takeWhile isAlphaCh)
        if (match cleaned with
            | d :: _ => isAlphaCh d
            | [] => false)
            && ["for", "feel", "use", "optional", "tip", "tips", "variation",
                "variations", "extra"].contains (⟨firstTok⟩ : String) then true
        else searchWordAlts ["flavor", "nutrition", "twist", "optional",
          "variation", "tip", "wine"] lowered
    | [] => false

/-- Embedding of `_looks_like_step_fragment`. -/
def looksLikeStepFragment (text : String) : Bool :=
  let cleaned := cleanText text
  if cleaned.toList.isEmpty then false
  else if isOcrArtifactLine cleaned then false
  else if (extractTipsRemainder cleaned).isSome then false
  else if looksLikeIngredientLine cleaned then false
  else if looksLikeNoteFragment cleaned then false
  else if looksLikeHeaderlessInstruction cleaned then true
  else
    let lowered := lowerL cleaned.toList
    if searchWordAlts ["add", "cook", "drain", "heat", "mix", "preheat",
        "prepare", "remove", "rest", "return", "serve", "simmer", "sprinkle",
        "stir", "toss"] lowered then true
    else if searchWordAlts ["bowl", "broth", "minutes", "minute", "oven",
        "pot", "sauce", "set aside", "skillet"] lowered then true
    else if cleaned.toList.getLast? = some '.'
        && (pySplitL cleaned.toList).length ≥ 4 then true
    else false

end Cauldron

namespace Cauldron

/-! ### `lab_recipe.py` — quantity and ingredient parsing -/

/-- Structured quantity (`Quantity` of the data model): exact-rational
`value`, optional `upperValue` for ranges, normalized unit string. -/
structure Quantity where
  value : ℚ
  upperValue : Option ℚ
  unit : String
deriving DecidableEq, Repr

/-- Python `round(x, 4)` on the exact-rational model: round half to
even at four decimal places.  `q * 10⁴ = num/den` with `den > 0`;
`n = ⌊q * 10⁴⌋` is the floor division and `rem/den` the fractional
part, so the three integer comparisons are exactly
`frac > 1/2` / `frac < 1/2` / half-to-even on the tie. -/
def pyRound4 (q : ℚ) : ℚ :=
  let num := q.num * 10000
  let den : ℤ := (q.den : ℤ)
  let n : ℤ := Int.fdiv num den
  let rem : ℤ := Int.fmod num den
  let r : ℤ :=
    if 2 * rem > den then n + 1
    else if 2 * rem < den then n
    else if n % 2 = 0 then n else n + 1
  mkRat r 10000

/-- Python `float(str)` on the decimal forms the pipeline feeds it:
optional sign, decimal digits with optional point, optional exponent.
(`inf`/`nan` spellings are not produced by any reachable caller.) -/
def pyFloat (s : List Char) : Option ℚ :=
  let t := pyStripL s
  let signAndRest : ℚ × List Char :=
    match t with
    | '+' :: r => (1, r)
    | '-' :: r => (-1, r)
    | r => (1, r)
  let sign := signAndRest.1
  let t := signAndRest.2
  let intPart := t.takeWhile isDigitCh
  let t1 := t.drop intPart.length
  let mantAndRest : Option (ℚ × List Char) :=
    match t1 with
    | '.' :: r =>
      let fracPart := r.takeWhile isDigitCh
      if intPart.isEmpty && fracPart.isEmpty then none
      else some ((digitsToNat intPart : ℚ) +
        (digitsToNat fracPart : ℚ) / (10 : ℚ) ^ fracPart.length,
        r.drop fracPart.length)
    | _ =>
      if intPart.isEmpty then none else some ((digitsToNat intPart : ℚ), t1)
  match mantAndRest with
  | none => none
  | some (m, rest) =>
    match rest with
    | [] => some (sign * m)
    | e :: r =>
      if e = 'e' || e = 'E' then
        let expSign : ℤ × List Char :=
          match r with
          | '+' :: r2 => (1, r2)
          | '-' :: r2 => (-1, r2)
          | r2 => (1, r2)
        let ds := expSign.2.takeWhile isDigitCh
        if ds.isEmpty || expSign.2.drop ds.length ≠ [] then none
        else some (sign * m * (10 : ℚ) ^ (expSign.1 * digitsToNat ds))
      else none

/-- One left-to-right pass replacing single characters under conditions
on the previous original character and the remaining original text
(the shape of the look-around substitutions in the quantity
normalizers; Python look-arounds inspect the original string). -/
def subScan (f : Option Char → Char → List Char → Option (List Char)) :
    List Char → List Char :=
  go none
where
  go (prev : Option Char) : List Char → List Char
    | [] => []
    | c :: rest =>
      match f prev c rest with
      | some repl => repl ++ go (some c) rest
      | none => c :: go (some c) rest

/-- Embedding of `_normalize_quantity_text`. -/
def normalizeQuantityText (text : String) : List Char :=
  let cleaned := pyStripL text.toList
  let cleaned := cleaned.map (fun c => if c = '–' || c = '—' then '-' else c)
  -- (?<![A-Za-z])[oO](?=\d) → "0"
  let cleaned := subScan (fun prev c rest =>
    if (c = 'o' || c = 'O')
        && (match prev with | some p => !isAlphaCh p | none => true)
        && (match rest with | d :: _ => isDigitCh d | [] => false)
    then some ['0'] else none) cleaned
  -- (?<=\d)[oO](?=\d|/|\b) → "0"
  let cleaned := subScan (fun prev c rest =>
    if (c = 'o' || c = 'O')
        && (match prev with | some p => isDigitCh p | none => false)
        && (match rest with
            | d :: _ => isDigitCh d || d = '/' || !isWordCh d
            | [] => true)
    then some ['0'] else none) cleaned
  -- (?<![A-Za-z])[Il](?=\d|/|\.|\b) → "1"
  let cleaned := subScan (fun prev c rest =>
    if (c = 'I' || c = 'l')
        && (match prev with | some p => !isAlphaCh p | none => true)
        && (match rest with
            | d :: _ => isDigitCh d || d = '/' || d = '.' || !isWordCh d
            | [] => true)
    then some ['1'] else none) cleaned
  -- (?<=\d)[Il](?=\d|/|\.|\b) → "1"
  let cleaned := subScan (fun prev c rest =>
    if (c = 'I' || c = 'l')
        && (match prev with | some p => isDigitCh p | none => false)
        && (match rest with
            | d :: _ => isDigitCh d || d = '/' || d = '.' || !isWordCh d
            | [] => true)
    then some ['1'] else none) cleaned
  -- (?<=\d),(?=\d) → "."
  let cleaned := subScan (fun prev c rest =>
    if c = ','
        && (match prev with | some p => isDigitCh p | none => false)
        && (match rest with | d :: _ => isDigitCh d | [] => false)
    then some ['.'] else none) cleaned
  -- ([½¼¾⅓⅔⅛⅜⅝⅞])\d+\b → "\1"
  let cleaned := dropGlyphDigits cleaned
  -- ^/\s*(?=\d+\s*/\s*\d+|[½¼¾⅓⅔⅛⅜⅝⅞]) → ""
  let cleaned :=
    match reMatchEnd (rseq [rlit "/", .star spCls,
      .ahead (.alt (rseq [.plus isDigitCh, .star spCls, rlit "/", .star spCls,
                          .plus isDigitCh])
                   (.cls fracCls))]) [] cleaned with
    | some (e, _) => cleaned.drop e
    | none => cleaned
  -- (\d)([½¼¾⅓⅔⅛⅜⅝⅞]) → "\1 \2"
  let cleaned := insertDigitGlyphSpace cleaned
  -- UNICODE_FRACTIONS replacements
  let cleaned := cleaned.foldr (fun c acc =>
    (match c with
     | '½' => "0.5".toList | '¼' => "0.25".toList | '¾' => "0.75".toList
     | '⅓' => "0.333".toList | '⅔' => "0.667".toList | '⅛' => "0.125".toList
     | '⅜' => "0.375".toList | '⅝' => "0.625".toList | '⅞' => "0.875".toList
     | _ => [c]) ++ acc) []
  cleaned
where
  dropGlyphDigits : List Char → List Char := fun s => dropGlyphAux s.length s
  dropGlyphAux : ℕ → List Char → List Char
    | 0, s => s
    | _ + 1, [] => []
    | fuel + 1, c :: rest =>
      if fracCls c then
        let ds := rest.takeWhile isDigitCh
        let after := rest.drop ds.length
        if !ds.isEmpty
            && (match after with | a :: _ => !isWordCh a | [] => true) then
          c :: dropGlyphAux fuel after
        else c :: dropGlyphAux fuel rest
      else c :: dropGlyphAux fuel rest
  insertDigitGlyphSpace : List Char → List Char
    | [] => []
    | [c] => [c]
    | c :: d :: rest =>
      if isDigitCh c && fracCls d then c :: ' ' :: insertDigitGlyphSpace (d :: rest)
      else c :: insertDigitGlyphSpace (d :: rest)

/-- Fuel-indexed embedding of `_parse_quantity_value`; the Python
function recurses on range halves and mixed-number parts, and
`text.length * 6 + 8` fuel strictly dominates that recursion (each
level works on pieces of the once-normalized text, and normalization
expands a character at most sixfold). -/
def parseQuantityValueF : ℕ → List Char → Option ℚ
  | 0, _ => none
  | fuel + 1, text =>
    let cleaned := normalizeQuantityText ⟨text⟩
    if cleaned.isEmpty then none
    else
      let merged : Option ℚ :=
        match reMatch (rseq [.grp 1 (.cls (fun c => '1' ≤ c && c ≤ '9')),
            .grp 2 (.cls (fun c => '1' ≤ c && c ≤ '9')), rlit "/",
            .grp 3 (.seq (.cls isDigitCh) (.opt (.cls isDigitCh))),
            .eos]) cleaned with
        | some g =>
          let whole := digitsToNat ((groupOf g 1).getD [])
          let numerator := digitsToNat ((groupOf g 2).getD [])
          let denominator := digitsToNat ((groupOf g 3).getD [])
          if [2, 3, 4, 8, 16].contains denominator && numerator < denominator
          then some ((whole : ℚ) + (numerator : ℚ) / (denominator : ℚ))
          else none
        | none => none
      match merged with
      | some v => some v
      | none =>
        let dashed : Option ℚ :=
          if cleaned.contains '-' then
            let a := pyStripL (cleaned.takeWhile (· ≠ '-'))
            let b := pyStripL ((cleaned.dropWhile (· ≠ '-')).drop 1)
            match parseQuantityValueF fuel a, parseQuantityValueF fuel b with
            | some first, some second => some ((first + second) / 2)
            | _, _ => none
          else none
        match dashed with
        | some v => some v
        | none =>
          let slashed : Option ℚ :=
            if cleaned.contains '/' then
              let a := pyStripL (cleaned.takeWhile (· ≠ '/'))
              let b := pyStripL ((cleaned.dropWhile (· ≠ '/')).drop 1)
              match pyFloat a, pyFloat b with
              | some numerator, some denominator =>
                if denominator ≠ 0 then some (numerator / denominator) else none
              | _, _ => none
            else none
          match slashed with
          | some v => some v
          | none =>
            let spaced : Option ℚ :=
              match pySplitL cleaned with
              | [a, b] =>
                match pyFloat a with
                | some whole =>
                  match parseQuantityValueF fuel b with
                  | some frac => some (whole + frac)
                  | none => none
                | none => none
              | _ => none
            match spaced with
            | some v => some v
            | none => pyFloat cleaned

/-- Embedding of `_parse_quantity_value` (see `parseQuantityValueF`). -/
def parseQuantityValue (text : String) : Option ℚ :=
  parseQuantityValueF (text.length * 6 + 8) text.toList

/-- `UNIT_ALIASES` from `lab_config.py`. -/
def unitAliases : List (String × String) :=
  [("t", "tsp"), ("tsp", "tsp"), ("tsps", "tsp"), ("teaspoon", "tsp"),
   ("teaspoons", "tsp"), ("teapoon", "tsp"), ("teapoons", "tsp"),
   ("tbsp", "tbsp"), ("tbsps", "tbsp"), ("tablespoon", "tbsp"),
   ("tablespoons", "tbsp"), ("c", "cup"), ("cup", "cup"), ("cups", "cup"),
   ("oz", "oz"), ("ounce", "oz"), ("ounces", "oz"), ("lb", "lb"),
   ("1b", "lb"), ("ib", "lb"), ("lbs", "lb"), ("pound", "lb"),
   ("pounds", "lb"), ("g", "g"), ("gram", "g"), ("grams", "g"),
   ("kg", "kg"), ("kgs", "kg"), ("kilogram", "kg"), ("kilograms", "kg"),
   ("ml", "ml"), ("mls", "ml"), ("milliliter", "ml"), ("milliliters", "ml"),
   ("l", "L"), ("liter", "L"), ("liters", "L"), ("pt", "pint"),
   ("pts", "pint"), ("pint", "pint"), ("pints", "pint"), ("qt", "quart"),
   ("qts", "quart"), ("quart", "quart"), ("quarts", "quart"),
   ("gal", "gallon"), ("gals", "gallon"), ("gallon", "gallon"),
   ("gallons", "gallon"), ("floz", "fl oz"), ("fl oz", "fl oz"),
   ("fluid ounce", "fl oz"), ("fluid ounces", "fl oz"), ("piece", "piece"),
   ("pieces", "piece"), ("pinch", "pinch"), ("pinches", "pinch"),
   ("dash", "dash"), ("dashes", "dash"), ("whole", "whole"),
   ("clove", "clove"), ("cloves", "clove"), ("bunch", "bunch"),
   ("bunches", "bunch"), ("can", "can"), ("cans", "can"),
   ("package", "package"), ("packages", "package")]

/-- Embedding of `_parse_unit_token`. -/
def parseUnitToken (unitText : String) : Option String :=
  let token := pyStripL unitText.toList
  let token := token.map (fun c =>
    if c = '$' then 's' else if c = '5' then 's' else if c = '0' then 'o' else c)
  let token := ((token.dropWhile (fun c => !(isAlphaCh c || isDigitCh c))).reverse.dropWhile
    (fun c => !(isAlphaCh c || isDigitCh c))).reverse
  if token = ['T'] then some "tbsp"
  else
    let normalized := lowerL token
    let normalized := pyReplaceL "1b".toList "lb".toList normalized
    let normalized := pyReplaceL "ib".toList "lb".toList normalized
    let normalized := pyReplaceL "tb5p".toList "tbsp".toList normalized
    let normalized := pyReplaceL "t5p".toList "tsp".toList normalized
    (unitAliases.find? (fun p => p.1 = (⟨normalized⟩ : String))).map (·.2)

/-- Embedding of `_normalize_quantity_unit_spacing`. -/
def normalizeQuantityUnitSpacing (text : String) : String :=
  let s := text.toList
  -- (?<=\d)(?=[A-Za-z]) → " "
  let s := insertBetween isDigitCh isAlphaCh s
  -- (?<=[A-Za-z])(?=\d) → " "
  let s := insertBetween isAlphaCh isDigitCh s
  -- (?<=[A-Za-z])\s*/\s*(?=\d) → " / "
  let s := slashFix none s
  ⟨pyStripL (collapseWsL s)⟩
where
  insertBetween (p q : Char → Bool) : List Char → List Char
    | [] => []
    | [c] => [c]
    | c :: d :: rest =>
      if p c && q d then c :: ' ' :: insertBetween p q (d :: rest)
      else c :: insertBetween p q (d :: rest)
  slashFix (prev : Option Char) (s : List Char) : List Char :=
    slashAux s.length prev s
  slashAux : ℕ → Option Char → List Char → List Char
    | 0, _, s => s
    | _ + 1, _, [] => []
    | fuel + 1, prev, c :: rest =>
      let prevAlpha := match prev with | some p => isAlphaCh p | none => false
      match reMatchEnd (rseq [.star spCls, rlit "/", .star spCls,
          .ahead (.cls isDigitCh)]) [] (c :: rest) with
      | some (e, _) =>
        if prevAlpha && 0 < e then
          ' ' :: '/' :: ' ' :: slashAux fuel (some '/') ((c :: rest).drop e)
        else c :: slashAux fuel (some c) rest
      | none => c :: slashAux fuel (some c) rest

/-- Embedding of `_normalize_ocr_ingredient_text`. -/
def normalizeOcrIngredientText (text : String) : String :=
  let s := text.toList
  -- ^\s*[•·▪◦●\-–—]+\s* → ""
  let bullet : Char → Bool := fun c =>
    c = '•' || c = '·' || c = '▪' || c = '◦' || c = '●' || c = '-' || c = '–' || c = '—'
  let s := match reMatchEnd (rseq [.star spCls, .plus bullet, .star spCls]) [] s with
    | some (e, _) => s.drop e
    | none => s
  -- ^\s*/+\s*(?=(?:\d+\s*/\s*\d+|[½¼¾⅓⅔⅛⅜⅝⅞])) → ""
  let s := match reMatchEnd (rseq [.star spCls, .plus (· = '/'), .star spCls,
      .ahead (.alt (rseq [.plus isDigitCh, .star spCls, rlit "/", .star spCls,
                          .plus isDigitCh])
                   (.cls fracCls))]) [] s with
    | some (e, _) => s.drop e
    | none => s
  -- (?<![A-Za-z])[Il](?=\s*/\s*\d) → "1"
  let s := subScan (fun prev c rest =>
    if (c = 'I' || c = 'l')
        && (match prev with | some p => !isAlphaCh p | none => true)
        && (reMatch (rseq [.star spCls, rlit "/", .star spCls, .cls isDigitCh])
              rest).isSome
    then some ['1'] else none) s
  -- (?<![A-Za-z])[oO](?=\s*[.,]?\d) → "0"
  let s := subScan (fun prev c rest =>
    if (c = 'o' || c = 'O')
        && (match prev with | some p => !isAlphaCh p | none => true)
        && (reMatch (rseq [.star spCls, .opt (.cls (fun x => x = '.' || x = ',')),
              .cls isDigitCh]) rest).isSome
    then some ['0'] else none) s
  -- \btb\s*5\s*p\b → "tbsp"  (case-sensitive)
  let s := reSubAll (rseq [.bound, .cls (· = 't'), .cls (· = 'b'), .star spCls,
    .cls (· = '5'), .star spCls, .cls (· = 'p'), .bound]) "tbsp".toList s
  -- \bt\s*5\s*p\b → "tsp"  (case-sensitive)
  let s := reSubAll (rseq [.bound, .cls (· = 't'), .star spCls,
    .cls (· = '5'), .star spCls, .cls (· = 'p'), .bound]) "tsp".toList s
  -- \b[1iI]b\b → "lb"  (case-sensitive)
  let s := reSubAll (rseq [.bound, .cls (fun c => c = '1' || c = 'i' || c = 'I'),
    .cls (· = 'b'), .bound]) "lb".toList s
  ⟨s⟩

end Cauldron

namespace Cauldron

/-- Parse result of the ingredient parsers:
`(name, quantity?, additionalQuantities, note?)`. -/
abbrev ParsedIngredient := String × Option Quantity × List Quantity × Option String

/-- Embedding of `_is_quantity_prefix_token`. -/
def isQuantityLeadToken (token : String) : Bool :=
  let stripped := pyStripL token.toList
  if stripped.isEmpty then false
  else if stripped = ['/'] then true
  else
    let keep : Char → Bool := fun c =>
      isAlphaCh c || isDigitCh c || fracCls c || c = '/' || c = '.' || c = '-'
    let cleaned := ((stripped.dropWhile (fun c => !keep c)).reverse.dropWhile
      (fun c => !keep c)).reverse
    if cleaned.isEmpty then false
    else if (parseQuantityValue ⟨cleaned⟩).isSome then true
    else (parseUnitToken ⟨cleaned⟩).isSome

/-- Embedding of `_parse_quantity_segment`.  The Python `while` loop
consumes at least one token per iteration; `go` mirrors one iteration
per recursive call, with fuel bounded by the token count (every
iteration consumes one or two value tokens plus at most one unit
token, so `tokens.length` fuel is always sufficient). -/
def parseQuantitySegment (segmentText : String) : List Quantity :=
  let tokens := pySplitL segmentText.toList
  go tokens.length tokens
where
  mkQty (v : ℚ) (u : String) : Quantity := ⟨pyRound4 v, none, u⟩
  go : ℕ → List (List Char) → List Quantity
    | 0, _ => []
    | _, [] => []
    | _ + 1, [t] =>
      match parseQuantityValue ⟨t⟩ with
      | some v => [mkQty v "whole"]
      | none => []
    | fuel + 1, t :: second :: rest2 =>
      let mixedVal : Option ℚ :=
        if parseUnitToken ⟨second⟩ = none then
          parseQuantityValue ⟨t ++ [' '] ++ second⟩
        else none
      match mixedVal with
      | some v =>
        (match rest2 with
         | u :: rest3 =>
           match parseUnitToken ⟨u⟩ with
           | some pu => mkQty v pu :: go fuel rest3
           | none => mkQty v "whole" :: go fuel rest2
         | [] => [mkQty v "whole"])
      | none =>
        match parseQuantityValue ⟨t⟩ with
        | some v =>
          (match parseUnitToken ⟨second⟩ with
           | some pu => mkQty v pu :: go fuel rest2
           | none => mkQty v "whole" :: go fuel (second :: rest2))
        | none => []

/-- Split on every occurrence of `sep` (Python `str.split(sep)` without
maxsplit). -/
def splitAllOn (sep : Char) (s : List Char) : List (List Char) :=
  go s
where
  go : List Char → List (List Char)
    | [] => [[]]
    | c :: rest =>
      if c = sep then [] :: go rest
      else match go rest with
        | tok :: toks => (c :: tok) :: toks
        | [] => [[c]]

/-- Embedding of `_parse_slash_quantity_ingredient`. -/
def parseSlashQuantityIngredient (cleaned : String) : Option ParsedIngredient :=
  if !cleaned.toList.contains '/' then none
  else
    let tokens := pySplitL cleaned.toList
    if tokens.length < 4 then none
    else
      let leadToks := tokens.takeWhile (fun t => isQuantityLeadToken ⟨t⟩)
      let restToks := tokens.drop leadToks.length
      if leadToks.isEmpty || !leadToks.contains ['/'] then none
      else if restToks.isEmpty then none
      else
        let ingredientName :=
          cleanText ⟨(restToks.map (fun t => t ++ [' '])).flatten.dropLast⟩
        if ingredientName = "" then none
        else
          let leadText := (leadToks.map (fun t => t ++ [' '])).flatten.dropLast
          let segments := ((splitAllOn '/' leadText).map pyStripL).filter
            (fun seg => !seg.isEmpty)
          if segments.length < 2 then none
          else
            let parsedSegs := segments.map (fun seg => parseQuantitySegment ⟨seg⟩)
            if parsedSegs.any (·.isEmpty) then none
            else
              let quantities := parsedSegs.flatten
              match quantities with
              | [] => none
              | q :: qs => some (ingredientName, some q, qs, none)

/-- The range pattern of `_parse_range_ingredient`:
`^({q})\s*(?:to|-|–|—)\s*({q})\s+([A-Za-z]+[\.,]?)\s+(.*)$`. -/
def rangePattern : RE :=
  rseq [.grp 1 (.plus qtyCls), .star spCls,
    ralts [rlit "to", rlit "-", rlit "–", rlit "—"], .star spCls,
    .grp 2 (.plus qtyCls), .plus spCls,
    .grp 3 (.seq (.plus isAlphaCh) (.opt (.cls (fun c => c = '.' || c = ',')))),
    .plus spCls, .grp 4 (.star dotCls), .eos]

/-- The "next token as unit" pattern `^([A-Za-z]+[\.,]?)(?:\s+(.*))?$`
shared by the range and generic parsers. -/
def nextUnitPattern : RE :=
  rseq [.grp 1 (.seq (.plus isAlphaCh) (.opt (.cls (fun c => c = '.' || c = ',')))),
    .opt (rseq [.plus spCls, .grp 2 (.star dotCls)]), .eos]

/-- Embedding of `_parse_range_ingredient`. -/
def parseRangeIngredient (cleaned : String) : Option ParsedIngredient :=
  match reMatch rangePattern cleaned.toList with
  | none => none
  | some g =>
    let lowerText := pyStripL ((groupOf g 1).getD [])
    let upperText := pyStripL ((groupOf g 2).getD [])
    let unitText := pyStripL ((groupOf g 3).getD [])
    let remaining := cleanText ⟨(groupOf g 4).getD []⟩
    match parseQuantityValue ⟨lowerText⟩, parseQuantityValue ⟨upperText⟩ with
    | some lowerValue, some upperValue =>
      if remaining = "" then none
      else
        let nameUnit : String × Option String :=
          match parseUnitToken ⟨unitText⟩ with
          | some u => (remaining, some u)
          | none =>
            match reMatch nextUnitPattern remaining.toList with
            | some g2 =>
              let nextUnitText := pyStripL ((groupOf g2 1).getD [])
              match parseUnitToken ⟨nextUnitText⟩ with
              | some nextUnit =>
                let restAfterNext := cleanText ⟨(groupOf g2 2).getD []⟩
                (cleanText ⟨unitText ++ ' ' :: restAfterNext.toList⟩, some nextUnit)
              | none =>
                (cleanText ⟨unitText ++ ' ' :: remaining.toList⟩, none)
            | none =>
              (cleanText ⟨unitText ++ ' ' :: remaining.toList⟩, none)
        let parsedUnit := nameUnit.2.getD "whole"
        let lower := min lowerValue upperValue
        let upper := max lowerValue upperValue
        some (nameUnit.1,
          some ⟨pyRound4 lower, some (pyRound4 upper), parsedUnit⟩, [], none)
    | _, _ => none

/-- The mixed-unit pattern of `_parse_mixed_unit_ingredient`:
`^({q})\s+([A-Za-z]+[\.,]?)\s*(plus|and|&|\+)\s*({q})\s+([A-Za-z]+[\.,]?)\s+(.*)$`. -/
def mixedPattern : RE :=
  rseq [.grp 1 (.plus qtyCls), .plus spCls,
    .grp 2 (.seq (.plus isAlphaCh) (.opt (.cls (fun c => c = '.' || c = ',')))),
    .star spCls,
    .grp 3 (ralts [rlit "plus", rlit "and", rlit "&", rlit "+"]), .star spCls,
    .grp 4 (.plus qtyCls), .plus spCls,
    .grp 5 (.seq (.plus isAlphaCh) (.opt (.cls (fun c => c = '.' || c = ',')))),
    .plus spCls, .grp 6 (.star dotCls), .eos]

/-- Embedding of `_parse_mixed_unit_ingredient`. -/
def parseMixedUnitIngredient (cleaned : String) : Option ParsedIngredient :=
  match reMatch mixedPattern cleaned.toList with
  | none => none
  | some g =>
    let firstQty := pyStripL ((groupOf g 1).getD [])
    let firstUnit := pyStripL ((groupOf g 2).getD [])
    let secondQty := pyStripL ((groupOf g 4).getD [])
    let secondUnit := pyStripL ((groupOf g 5).getD [])
    let remaining := cleanText ⟨(groupOf g 6).getD []⟩
    if remaining = "" then none
    else
      match parseQuantityValue ⟨firstQty⟩, parseQuantityValue ⟨secondQty⟩,
        parseUnitToken ⟨firstUnit⟩, parseUnitToken ⟨secondUnit⟩ with
      | some firstValue, some secondValue, some normalizedFirst, some normalizedSecond =>
        some (remaining, some ⟨pyRound4 firstValue, none, normalizedFirst⟩,
          [⟨pyRound4 secondValue, none, normalizedSecond⟩], none)
      | _, _, _, _ => none

/-- The generic quantity pattern of `_parse_ingredient_text`:
`^([\d\s½¼¾⅓⅔⅛⅜⅝⅞/\.-]+)\s*([A-Za-z]+[\.,]?)?\s+(.*)$`. -/
def genericPattern : RE :=
  rseq [.grp 1 (.plus qtyCls), .star spCls,
    .opt (.grp 2 (.seq (.plus isAlphaCh)
      (.opt (.cls (fun c => c = '.' || c = ','))))),
    .plus spCls, .grp 3 (.star dotCls), .eos]

/-- The numbered-instruction guard `^\d+\s*[.)]\s+[A-Za-z]` of
`_parse_ingredient_text`. -/
def numberedInstructionGuard (cleaned : String) : Bool :=
  (reMatch (rseq [.plus isDigitCh, .star spCls,
    .cls (fun c => c = '.' || c = ')'), .plus spCls, .cls isAlphaCh])
    cleaned.toList).isSome

/-- The cleaning pipeline at the head of `_parse_ingredient_text`. -/
def ingredientCleaned (raw : String) : String :=
  normalizeQuantityUnitSpacing (normalizeOcrIngredientText (cleanText raw))

/-- Embedding of `_parse_ingredient_text`. -/
def parseIngredientText (raw : String) : ParsedIngredient :=
  let cleaned := ingredientCleaned raw
  if numberedInstructionGuard cleaned then (cleaned, none, [], none)
  else match parseRangeIngredient cleaned with
  | some r => r
  | none =>
  match parseMixedUnitIngredient cleaned with
  | some r => r
  | none =>
  match parseSlashQuantityIngredient cleaned with
  | some r => r
  | none =>
  match reMatch genericPattern cleaned.toList with
  | none => (cleaned, none, [], none)
  | some g =>
    let qtyText := pyStripL ((groupOf g 1).getD [])
    let unitText := pyStripL ((groupOf g 2).getD [])
    let remaining : String := ⟨pyStripL ((groupOf g 3).getD [])⟩
    match parseQuantityValue ⟨qtyText⟩ with
    | none => (cleaned, none, [], none)
    | some value =>
      let parsedUnit :=
        if !unitText.isEmpty then parseUnitToken ⟨unitText⟩ else none
      let nameUnit : String × String :=
        match parsedUnit with
        | some u => ((if remaining ≠ "" then remaining else cleaned), u)
        | none =>
          match (if !unitText.isEmpty then reMatch nextUnitPattern remaining.toList
                 else none) with
          | some g2 =>
            let nextUnitText := pyStripL ((groupOf g2 1).getD [])
            match parseUnitToken ⟨nextUnitText⟩ with
            | some nextUnit =>
              let restAfterNext := cleanText ⟨(groupOf g2 2).getD []⟩
              (cleanText ⟨unitText ++ ' ' :: restAfterNext.toList⟩, nextUnit)
            | none =>
              (cleanText ⟨unitText ++ ' ' :: remaining.toList⟩, "whole")
          | none =>
            if !unitText.isEmpty then
              (cleanText ⟨unitText ++ ' ' :: remaining.toList⟩, "whole")
            else
              ((if remaining ≠ "" then remaining else cleaned), "whole")
      (nameUnit.1, some ⟨pyRound4 value, none, nameUnit.2⟩, [], none)

end Cauldron

namespace Cauldron

/-! ### `lab_recipe.py` — name sanitizing, metadata, timers -/

/-- Embedding of `_sanitize_ingredient_name`. -/
def sanitizeIngredientName (name : String) : String :=
  let cleaned := (cleanText name).toList
  if cleaned.isEmpty then ""
  else
    let lowered := lowerL cleaned
    let cleaned :=
      if containsSubL "package and".toList lowered then
        reSubAll (rseq [.bound, rlit "package and", .bound]) "and".toList cleaned
      else cleaned
    let cleaned := reSubAll (rseq [.bound, rlit "package", .bound]) [] cleaned
    let cleaned := subFromSearch (rseq [.bound, rlit "to", .plus spCls,
      rlit "taste", .plus spCls, rlit "salt",
      .opt (.seq (.plus spCls) (rlit "and")), .bound]) "to taste".toList cleaned
    let cleaned := subFromSearch (rseq [.bound, rlit "to", .plus spCls,
      rlit "taste", .bound]) "to taste".toList cleaned
    let cleaned := subFromSearch (rseq [.bound, rlit "for serving", .bound])
      "for serving".toList cleaned
    let cleaned := subFromSearch (rseq [.bound, rlit "and", .plus spCls,
      rlit "red", .bound,
      .opt (rseq [.plus spCls, .cls isAlphaCh,
        .opt (rseq [.cls isAlphaCh,
          .opt (rseq [.cls isAlphaCh, .opt (.cls isAlphaCh)])])]),
      .star spCls, .eos]) [] cleaned
    let cleaned := subFromSearch (rseq [.bound, rlit "sauce", .bound]) [] cleaned
    let cleaned := subFromSearch (rseq [.bound, rlit "chopped", .plus spCls,
      rlit "immediat", .star isWordCh]) [] cleaned
    let cleaned := reSubAll (rseq [.bound, rlit "lemon", .plus spCls, rlit "z",
      .cls (fun c => lowerCh c = 'e' || c = '3'), .opt (rlit "st"), .plus spCls,
      .ahead (.seq (rlit "fresh parsley") .bound)]) [] cleaned
    let cleaned := subFromSearch (rseq [.bound, rlit "to", .plus spCls,
      rlit "taste", .plus spCls, rlit "and", .star spCls, .eos])
      "to taste".toList cleaned
    let cleaned :=
      if searchWordAlts ["package instructions", "package instruction",
          "set aside", "minutes", "minute"] lowered then
        let cleaned := subFromSearch (rseq [.bound, rlit "package instruction",
          .opt (rlit "s"), .bound]) [] cleaned
        let cleaned := subFromSearch (rseq [.bound, rlit "set aside", .bound])
          [] cleaned
        let cleaned := subFromSearch (rseq [.bound, rlit "minute",
          .opt (rlit "s"), .bound]) [] cleaned
        let cleaned := subFromSearch (rseq [.bound, rlit "about", .plus spCls,
          .plus isDigitCh, .bound]) [] cleaned
        cleaned
      else cleaned
    let cleaned := pyStripCharsL " ,;:-".toList (collapseWsL cleaned)
    let cleaned := pyStripCharsL " ,;:-".toList
      (subFromSearch (rseq [.bound, .cls isAlphaCh, .eos]) [] cleaned)
    cleanText ⟨cleaned⟩

/-- Embedding of `_should_drop_ingredient_entry`. -/
def shouldDropIngredientEntry (name : String) (quantity : Option Quantity) :
    Bool :=
  let cleaned := cleanText name
  if cleaned.toList.isEmpty then true
  else if isOcrArtifactLine cleaned then true
  else if (extractTipsRemainder cleaned).isSome then true
  else
    let lowered := lowerL cleaned.toList
    match quantity with
    | none =>
      if looksLikeHeaderlessInstruction cleaned then true
      else if searchWordAlts ["skillet", "prepare", "serve", "sprinkle",
        "immediately", "return the", "set aside", "minutes", "minute"]
        lowered then true
      else if (reMatch (rseq [.plus isAlphaCh, .plus spCls, .plus isDigitCh,
        .eos]) cleaned.toList).isSome then true
      else false
    | some _ => false

/-- Embedding of `_parse_time_string_minutes` (minutes as a natural
number). -/
def parseTimeStringMinutes (text : String) : Option ℕ :=
  let cleaned := lowerL (pyStripL text.toList)
  if cleaned.isEmpty then none
  else
    match reSearch (rseq [.bound, .grp 1 (.plus isDigitCh), rlit ":",
      .grp 2 (.plus isDigitCh), .bound]) cleaned with
    | some (_, _, g) =>
      some (digitsToNat ((groupOf g 1).getD []) * 60 +
        digitsToNat ((groupOf g 2).getD []))
    | none =>
      let hourM := reSearch (rseq [.bound, .grp 1 (.plus isDigitCh), .star spCls,
        ralts [.seq (rlit "hour") (.opt (rlit "s")),
               .seq (rlit "hr") (.opt (rlit "s")), rlit "h"], .bound]) cleaned
      let minuteM := reSearch (rseq [.bound, .grp 1 (.plus isDigitCh), .star spCls,
        ralts [.seq (rlit "minute") (.opt (rlit "s")),
               .seq (rlit "min") (.opt (rlit "s")), rlit "m"], .bound]) cleaned
      let hours := match hourM with
        | some (_, _, g) => some (digitsToNat ((groupOf g 1).getD []))
        | none => none
      let minutes := match minuteM with
        | some (_, _, g) => some (digitsToNat ((groupOf g 1).getD []))
        | none => none
      if hours.isSome || minutes.isSome then
        some ((hours.getD 0) * 60 + minutes.getD 0)
      else
        match reSearch (rseq [.bound, .grp 1 (.plus isDigitCh), .bound]) cleaned with
        | some (_, _, g) => some (digitsToNat ((groupOf g 1).getD []))
        | none => none

/-- Embedding of `_extract_minutes_by_pattern`: the given `^`-anchored
pattern must capture a nonempty tail, which is then time-parsed. -/
def extractMinutesByPattern (text : String) (headPat : RE) : Option ℕ :=
  match reMatch (rseq [headPat,
      .grp 1 (.seq (.cls dotCls) (.star dotCls)), .eos]) text.toList with
  | none => none
  | some g =>
    let tail := cleanText ⟨(groupOf g 1).getD []⟩
    if tail = "" then none else parseTimeStringMinutes tail

/-- Embedding of `_extract_yield_line`. -/
def extractYieldLine (text : String) : Option String :=
  let lowered : String := ⟨lowerL (pyStripL text.toList)⟩
  let leads := ["serves", "serving", "servings", "yield", "yields", "makes",
    "portion", "portions"]
  if !leads.any (fun key =>
      lowered = key || (key ++ " ").isPrefixOf lowered
        || (key ++ ":").isPrefixOf lowered) then none
  else
    match reSearch (.grp 1 (rseq [.plus isDigitCh,
      .opt (rseq [.star spCls, ralts [rlit "-", rlit "–", rlit "to"],
        .star spCls, .plus isDigitCh])])) text.toList with
    | none => none
    | some (_, _, g) =>
      let number := (groupOf g 1).getD []
      let number := pyReplaceL " to ".toList "-".toList number
      let number := pyReplaceL "–".toList "-".toList number
      let number := pyStripL (collapseWsL number)
      some ⟨number ++ " servings".toList⟩

/-- Recipe-level metadata recovered from a single line
(`_extract_metadata_line`; `none` when the line carries none). -/
structure Metadata where
  yields : Option String
  totalMinutes : Option ℕ
  prepMinutes : Option ℕ
  cookMinutes : Option ℕ
deriving DecidableEq, Repr

/-- Embedding of `_extract_metadata_line`. -/
def extractMetadataLine (text : String) : Option Metadata :=
  if text.toList.isEmpty then none
  else
    let yieldValue := extractYieldLine text
    let optColon := rseq [.star spCls, .opt (rlit ":"), .star spCls]
    let total := match extractMinutesByPattern text
      (rseq [.star spCls, ralts [rseq [rlit "total", .star spCls, rlit "time"],
        rlit "total", rseq [rlit "ready", .star spCls, rlit "in"]], optColon]) with
      | some v => some v
      | none => extractMinutesByPattern text
          (rseq [.star spCls, rlit "time", .star spCls, rlit ":", .star spCls])
    let prep := extractMinutesByPattern text
      (rseq [.star spCls, ralts [rseq [rlit "prep", .star spCls, rlit "time"],
        rseq [rlit "prepping", .star spCls, rlit "time"],
        rseq [rlit "preparation", .star spCls, rlit "time"]], optColon])
    let cook := extractMinutesByPattern text
      (rseq [.star spCls, ralts [rseq [rlit "cook", .star spCls, rlit "time"],
        rseq [rlit "cooking", .star spCls, rlit "time"],
        rseq [rlit "bake", .star spCls, rlit "time"],
        rseq [rlit "roast", .star spCls, rlit "time"]], optColon])
    if yieldValue.isNone && total.isNone && prep.isNone && cook.isNone then none
    else some ⟨yieldValue, total, prep, cook⟩

/-- Embedding of `_default_source_title`: the network location of the
source URL (`urllib.parse.urlparse(...).netloc`), modelled directly. -/
def defaultSourceTitle (sourceUrl : String) : Option String :=
  if sourceUrl.toList.isEmpty then none
  else
    let s := sourceUrl.toList
    let afterScheme :=
      match s.indexOf? ':' with
      | some i =>
        let scheme := s.take i
        if !scheme.isEmpty && isAlphaCh (scheme.headD ' ')
            && scheme.all (fun c => isAlphaCh c || isDigitCh c
              || c = '+' || c = '-' || c = '.') then
          s.drop (i + 1)
        else s
      | none => s
    match afterScheme with
    | '/' :: '/' :: rest =>
      let netloc := rest.takeWhile (fun c => c ≠ '/' && c ≠ '?' && c ≠ '#')
      if netloc.isEmpty then none else some ⟨netloc⟩
    | _ => none

/-- Timer specification (`TimerSpec` of the data model). -/
structure TimerSpec where
  seconds : ℕ
  label : String
deriving DecidableEq, Repr

/-- `TIMER_LABEL_KEYWORDS` from `lab_config.py`. -/
def timerLabelKeywords : List (List String × String) :=
  [(["rest", "resting"], "Rest"),
   (["chill", "chilling", "refrigerate", "cool", "cooling"], "Chill"),
   (["rise", "proof", "proofing", "ferment"], "Rise"),
   (["marinate", "marinating"], "Marinate"),
   (["simmer", "simmering"], "Simmer"),
   (["boil", "boiling"], "Boil"),
   (["bake", "baking"], "Bake"),
   (["roast", "roasting"], "Roast"),
   (["fry", "frying", "saute", "sauté"], "Fry")]

/-- Embedding of `_infer_timer_label`. -/
def inferTimerLabel (lowered : List Char) (start stop index total : ℕ) :
    String :=
  let contextBefore := (lowered.take start).drop (start - 60)
  let contextAfter := (lowered.drop stop).take 24
  match timerLabelKeywords.find? (fun kw =>
    kw.1.any (fun k => containsSubL k.toList contextBefore)) with
  | some kw => kw.2
  | none =>
  match timerLabelKeywords.find? (fun kw =>
    kw.1.any (fun k => containsSubL k.toList contextAfter)) with
  | some kw => kw.2
  | none =>
    if total > 1 && index = total - 1
        && (containsSubL "then".toList contextBefore
            || containsSubL "after".toList contextBefore) then "Rest"
    else "Cook"

/-- Embedding of `_extract_timers`. -/
def extractTimers (stepText : String) : List TimerSpec :=
  let lowered := lowerL stepText.toList
  let patFor : RE → RE := fun unitAlt =>
    rseq [.grp 1 (.plus isDigitCh), .star spCls, .grp 2 unitAlt, .bound]
  let collect (unitKind : ℕ) (unitAlt : RE) : List (ℕ × ℕ × ℕ × ℕ) :=
    (reFinditer (patFor unitAlt) lowered).map (fun m =>
      (m.1, m.2.1, digitsToNat ((groupOf m.2.2 1).getD []), unitKind))
  let raw :=
    collect 0 (ralts [.seq (rlit "second") (.opt (rlit "s")),
      .seq (rlit "sec") (.opt (rlit "s"))]) ++
    collect 1 (ralts [.seq (rlit "minute") (.opt (rlit "s")),
      .seq (rlit "min") (.opt (rlit "s"))]) ++
    collect 2 (ralts [.seq (rlit "hour") (.opt (rlit "s")),
      .seq (rlit "hr") (.opt (rlit "s"))])
  let sorted := raw.insertionSort (fun a b => a.1 ≤ b.1)
  let total := sorted.length
  (List.range total).map (fun idx =>
    match sorted.getD idx (0, 0, 0, 0) with
    | (start, stop, value, unitKind) =>
      let seconds :=
        if unitKind = 0 then value
        else if unitKind = 1 then value * 60
        else value * 3600
      ⟨seconds, inferTimerLabel lowered start stop idx total⟩)

end Cauldron

namespace Cauldron

/-! ### `lab_recipe.py` — recipe assembly -/

/-- Embedding of `_looks_like_recipe_title`. -/
def looksLikeRecipeTitle (text : String) : Bool :=
  let cleaned := cleanText text
  let cl := cleaned.toList
  if cl.isEmpty then false
  else if (extractTipsRemainder cleaned).isSome then false
  else if looksLikeIngredientLine cleaned then false
  else if (extractMetadataLine cleaned).isSome then false
  else if (reSearch (rseq [.bound,
      ralts [.seq (rlit "prep") (.opt (rlit "ping")), rlit "preparation",
             .seq (rlit "cook") (.opt (rlit "ing")), rlit "total"],
      .star spCls, rlit "tim", .opt (rlit "e"), .bound]) cl).isSome then false
  else if (headerSectionType cleaned).isSome then false
  else if (reMatch (rseq [.star spCls,
      .cls (fun c => c = '-' || c = '•' || c = '*'), .plus spCls]) cl).isSome
    then false
  else if cl.getLast? = some '.' then false
  else if (reMatch (rseq [ralts [rlit "for", rlit "feel", rlit "use"], .bound])
      cl).isSome then false
  else if cl.contains ',' && (pySplitL cl).length > 8 then false
  else if (reMatch (rseq [ralts [rlit "preheat", rlit "mix", rlit "add",
      rlit "bake", rlit "cook", rlit "stir", rlit "whisk", rlit "combine",
      rlit "toss", rlit "rest", rlit "serve", rlit "simmer", rlit "boil"],
      .bound]) cl).isSome then false
  else
    let wordCount := countTitleWords cl
    if wordCount < 2 || wordCount > 16 then false
    else true
where
  /-- Count of `re.findall(r"[A-Za-z][A-Za-z'&-]*", cleaned)` matches;
  `inRun` tracks whether the scan is inside a matched word (the word
  tail class contains the alphabetic start class, so no rescan of the
  terminating character is needed). -/
  countTitleWords (s : List Char) : ℕ := countWordsAux false s
  countWordsAux : Bool → List Char → ℕ
    | _, [] => 0
    | inRun, c :: rest =>
      let tailCls : Char → Bool := fun x =>
        isAlphaCh x || x = Char.ofNat 39 || x = '&' || x = '-'
      if inRun then
        if tailCls c then countWordsAux true rest
        else countWordsAux false rest
      else
        if isAlphaCh c then 1 + countWordsAux true rest
        else countWordsAux false rest

/-- Embedding of `_looks_like_step_continuation`. -/
def looksLikeStepContinuation (previousText currentText : String) : Bool :=
  let prev := (cleanText previousText).toList
  let curr := (cleanText currentText).toList
  if prev.isEmpty || curr.isEmpty then false
  else if (reMatch (rseq [.plus isDigitCh, .star spCls,
      .cls (fun c => c = '.' || c = ')'), .plus spCls]) curr).isSome then false
  else if looksLikeSubsectionHeader ⟨curr⟩ then false
  else if [some '.', some '!', some '?'].contains prev.getLast? then false
  else if [some ',', some ';', some '-', some '–', some '—', some '/'].contains
      prev.getLast? then true
  else if (prev.filter (· = '(')).length > (prev.filter (· = ')')).length then true
  else if (reMatch (rseq [ralts [rlit "and", rlit "or", rlit "then",
      rlit "plus", rlit "also"], .bound]) curr).isSome then true
  else match curr with
    | c :: _ =>
      ('a' ≤ c && c ≤ 'z') || c = '(' || c = '\\' || c = '[' || c = '"'
        || c = Char.ofNat 39 || c = '/' || c = '-'
    | [] => false

/-- Step entry (`StepEntry` of the data model). -/
structure StepEntry where
  index : ℕ
  text : String
  timers : List TimerSpec
  sectionName : Option String
deriving DecidableEq, Repr

/-- Ingredient entry (`IngredientEntry` of the data model). -/
structure IngredientEntry where
  name : String
  quantity : Option Quantity
  additionalQuantities : List Quantity
  note : Option String
  sectionName : Option String
deriving DecidableEq, Repr

/-- Embedding of `_merge_wrapped_steps`. -/
def mergeWrappedSteps (steps : List StepEntry) : List StepEntry :=
  let merged := steps.foldl (fun (acc : List StepEntry) item =>
    let text := cleanText item.text
    if text = "" then acc
    else
      match acc.getLast? with
      | some previous =>
        if previous.sectionName = item.sectionName
            && looksLikeStepContinuation previous.text text then
          let previousText := cleanText previous.text
          let newText := cleanText ⟨previousText.toList ++ ' ' :: text.toList⟩
          acc.dropLast ++
            [{ previous with text := newText, timers := extractTimers newText }]
        else
          acc ++ [⟨acc.length, text, extractTimers text, item.sectionName⟩]
      | none => [⟨0, text, extractTimers text, item.sectionName⟩]) []
  merged.enum.map (fun p => { p.2 with index := p.1 })

/-- Embedding of `_looks_like_ingredient_continuation`. -/
def looksLikeIngredientContinuation (previous current : IngredientEntry) :
    Bool :=
  if previous.sectionName ≠ current.sectionName then false
  else if current.quantity.isSome then false
  else if !current.additionalQuantities.isEmpty then false
  else
    let prevName := (cleanText previous.name).toList
    let currName := (cleanText current.name).toList
    if prevName.isEmpty || currName.isEmpty then false
    else if [some ',', some ';', some '-', some '(', some '/'].contains
        prevName.getLast? then true
    else if (reMatch (rseq [ralts [rlit "and", rlit "or", rlit "to", rlit "for",
        rlit "of", rlit "with", rlit "plus"], .bound]) currName).isSome then true
    else if (reMatch (rseq [.plus isDigitCh, rlit "-", .cls isAlphaCh])
        currName).isSome then true
    else match currName with
      | c :: _ => 'a' ≤ c && c ≤ 'z'
      | [] => false

/-- Embedding of `_merge_wrapped_ingredients`. -/
def mergeWrappedIngredients (ingredients : List IngredientEntry) :
    List IngredientEntry :=
  ingredients.foldl (fun (acc : List IngredientEntry) item =>
    let name := cleanText item.name
    if name = "" then acc
    else
      let normalized := { item with name := name }
      match acc.getLast? with
      | some previous =>
        if looksLikeIngredientContinuation previous normalized then
          let previousName := cleanText previous.name
          acc.dropLast ++ [{ previous with
            name := cleanText ⟨previousName.toList ++ ' ' :: name.toList⟩ }]
        else acc ++ [normalized]
      | none => [normalized]) []

/-- Embedding of `_infer_sauce_section_split` (returning the updated
ingredient list instead of mutating it). -/
def inferSauceSectionSplit (ingredients : List IngredientEntry)
    (steps : List StepEntry) : List IngredientEntry :=
  if ingredients.length < 6 then ingredients
  else if ingredients.any (fun item =>
      match item.sectionName with
      | some sec => sec ≠ ""
      | none => false) then ingredients
  else
    let stepText := ((steps.map (fun item =>
      lowerL item.text.toList ++ [' '])).flatten).dropLast
    if !searchWordAlts ["sauce"] stepText then ingredients
    else
      let marks := (ingredients.take (ingredients.length - 2)).enum.filterMap
        (fun p =>
          let name := (cleanText ⟨lowerL p.2.name.toList⟩).toList
          if name.isEmpty then none
          else
            let marker := reSubAll (rseq [rlit "(", .star (· ≠ ')'), rlit ")"])
              [] name
            let marker := pyStripCharsL " :;,-".toList (collapseWsL marker)
            if marker.isEmpty then none
            else if (reMatch (.seq (.alt (rseq [rlit "for ",
                .opt (rlit "the "), rlit "sauce"]) (rlit "sauce")) .eos)
                marker).isSome then
              some (p.1 + 1, "Sauce")
            else if (reMatch (.seq (ralts [rlit "for serving", rlit "to serve",
                rlit "for garnish"]) .eos) marker).isSome then
              some (p.1 + 1, "For Serving")
            else none)
      match marks.head? with
      | none => ingredients
      | some (splitIndex, splitName) =>
        if splitIndex < 2 || ingredients.length - splitIndex < 2 then ingredients
        else
          ingredients.enum.map (fun p =>
            { p.2 with sectionName := if p.1 < splitIndex then none else some splitName })

/-- Labelled line fed to the assembler (the `rows` dictionaries of
`_assemble_app_recipe`). -/
structure Row where
  text : String
  label : String
deriving DecidableEq, Repr

/-- `LABELS` from `lab_config.py`. -/
def labelsList : List String :=
  ["title", "ingredient", "step", "note", "header", "junk"]

/-- Loop state of `_assemble_app_recipe`.  The loop-time
`ingredient_sections`/`step_sections` dictionaries are dead state — the
source clears and rebuilds them after the merge passes — and are
therefore not tracked. -/
structure AsmState where
  title : String
  currentSection : String
  currentIngredientSection : Option String
  currentStepSection : Option String
  ingredients : List IngredientEntry
  steps : List StepEntry
  notes : List String
  parsedIngredientCount : ℕ
  extractedYields : Option String
  prepMinutes : Option ℕ
  cookMinutes : Option ℕ
  totalMinutes : Option ℕ
deriving Repr

/-- Embedding of the `add_ingredient` closure. -/
def addIngredient (s : AsmState) (text : String) (sectionName : Option String) :
    AsmState :=
  match parseIngredientText text with
  | (name0, quantity, additionalQuantities, note) =>
    let name := sanitizeIngredientName name0
    if shouldDropIngredientEntry name quantity then s
    else
      { s with
        ingredients := s.ingredients ++
          [⟨name, quantity, additionalQuantities, note, sectionName⟩],
        parsedIngredientCount := s.parsedIngredientCount +
          (if quantity.isSome then 1 else 0) + additionalQuantities.length }

/-- Embedding of the `add_step` closure. -/
def addStep (s : AsmState) (text : String) (sectionName : Option String) :
    AsmState :=
  let stepText := stripStepNumberLead text
  if stepText = "" then s
  else if isOcrArtifactLine stepText then s
  else
    { s with steps := s.steps ++
        [⟨s.steps.length, stepText, extractTimers stepText, sectionName⟩] }

/-- Metadata consumption at the head of the row loop. -/
def applyMetadata (s : AsmState) (md : Metadata) : AsmState :=
  let s := match md.yields with
    | some y => if y ≠ "" then { s with extractedYields := some y } else s
    | none => s
  let s := match md.totalMinutes with
    | some v => { s with totalMinutes := some v }
    | none => s
  let s := match md.prepMinutes with
    | some v => { s with prepMinutes := some v }
    | none => s
  match md.cookMinutes with
  | some v => { s with cookMinutes := some v }
  | none => s

/-- Append a normalized note line when it is nonempty. -/
def appendNote (s : AsmState) (noteLine : String) : AsmState :=
  if noteLine ≠ "" then { s with notes := s.notes ++ [noteLine] } else s

/-- The `label == "title"` branch of the row loop. -/
def asmTitleRow (s : AsmState) (text : String) : AsmState :=
  if looksLikeRecipeTitle text then { s with title := text }
  else { s with notes := s.notes ++ [text] }

/-- The `label == "header"` branch of the row loop. -/
def asmHeaderRow (s : AsmState) (text : String) : AsmState :=
  match headerSectionType text with
  | some "ingredients" =>
    { s with
      currentSection := "ingredients"
      currentIngredientSection := none }
  | some "steps" =>
    { s with
      currentSection := "steps"
      currentStepSection := none }
  | some "notes" => { s with currentSection := "notes" }
  | _ =>
    if looksLikeSubsectionHeader text then
      let subsection := cleanText ⟨text.toList.reverse.dropWhile (· = ':')
        |>.reverse⟩
      if s.currentSection = "steps" then
        { s with currentStepSection := some subsection }
      else if s.currentSection = "notes" then
        { s with notes := s.notes ++ [text] }
      else
        { s with
          currentSection := "ingredients"
          currentIngredientSection := some subsection }
    else if s.currentSection = "ingredients" then
      if looksLikeHeaderlessInstruction text then
        addStep { s with currentSection := "steps" } text s.currentStepSection
      else addIngredient s text s.currentIngredientSection
    else s

/-- The `label == "ingredient"` branch of the row loop. -/
def asmIngredientRow (s : AsmState) (text : String) : AsmState :=
  if s.currentSection = "notes" && looksLikeNoteFragment text then
    appendNote s (normalizeNoteText text)
  else if s.currentSection = "notes" && looksLikeStepFragment text then
    addStep { s with currentSection := "steps" } text s.currentStepSection
  else if s.currentSection = "ingredients"
      && looksLikeHeaderlessInstruction text then
    addStep { s with currentSection := "steps" } text s.currentStepSection
  else if s.currentSection = "steps" && !looksLikeIngredientLine text then
    addStep { s with currentSection := "steps" } text s.currentStepSection
  else
    addIngredient { s with currentSection := "ingredients" } text
      s.currentIngredientSection

/-- The `label == "step"` branch of the row loop. -/
def asmStepRow (s : AsmState) (text : String) : AsmState :=
  if s.currentSection = "notes" && looksLikeNoteFragment text then
    appendNote s (normalizeNoteText text)
  else
    (splitNumberedSteps text).foldl
      (fun acc stepText => addStep acc stepText acc.currentStepSection)
      { s with currentSection := "steps" }

/-- The `label == "note"` branch of the row loop. -/
def asmNoteRow (s : AsmState) (text : String) : AsmState :=
  if looksLikeStepFragment text then
    addStep { s with currentSection := "steps" } text s.currentStepSection
  else
    appendNote { s with currentSection := "notes" } (normalizeNoteText text)

/-- The trailing "opportunistic title" branch of the row loop. -/
def asmFallbackRow (s : AsmState) (text label : String) : AsmState :=
  if s.title = "" && label ≠ "junk" then
    if looksLikeRecipeTitle text then { s with title := text } else s
  else s

/-- One iteration of the row loop of `_assemble_app_recipe`. -/
def asmProcessRow (s : AsmState) (row : Row) : AsmState :=
  let text := cleanText row.text
  let label := pyLower (pyStrip row.label)
  if text = "" || !labelsList.contains label then s
  else match extractMetadataLine text with
  | some md => applyMetadata s md
  | none =>
  if isOcrArtifactLine text then s
  else match extractTipsRemainder text with
  | some tipsRemainder =>
    appendNote { s with currentSection := "notes" }
      (normalizeNoteText tipsRemainder)
  | none =>
  if s.currentSection = "notes" && ["ingredient", "step", "note"].contains label
      && looksLikeNoteFragment text then
    appendNote { s with currentSection := "notes" } (normalizeNoteText text)
  else if label = "title" && s.title = "" then asmTitleRow s text
  else if label = "header" then asmHeaderRow s text
  else if label = "ingredient" then asmIngredientRow s text
  else if label = "step" then asmStepRow s text
  else if label = "note" then asmNoteRow s text
  else asmFallbackRow s text label

/-- Named section of the assembled recipe output. -/
structure SectionOut where
  name : Option String
  items : List String
deriving DecidableEq, Repr

/-- The `stats` block of the assembled recipe. -/
structure RecipeStats where
  ingredientCount : ℕ
  ingredientParsedQuantityCount : ℕ
  stepCount : ℕ
  noteCount : ℕ
  ingredientSectionCount : ℕ
  stepSectionCount : ℕ
deriving DecidableEq, Repr

/-- Assembled recipe (`Recipe` of the data model). -/
structure Recipe where
  title : String
  sourceURL : Option String
  sourceTitle : Option String
  yields : String
  totalMinutes : Option ℕ
  ingredients : List IngredientEntry
  steps : List StepEntry
  notes : Option String
  ingredientSections : List SectionOut
  stepSections : List SectionOut
  stats : RecipeStats
deriving DecidableEq, Repr

/-- The `section_key` closure: `name if name else "Main"`. -/
def sectionKey (name : Option String) : String :=
  match name with
  | some n => if n ≠ "" then n else "Main"
  | none => "Main"

/-- Rebuild the ordered section map from `(key, item)` pairs (the
post-merge `ingredient_sections`/`step_sections` reconstruction). -/
def rebuildSections (pairs : List (String × String)) :
    List (String × List String) :=
  pairs.foldl (fun acc p =>
    if acc.any (fun e => e.1 = p.1) then
      acc.map (fun e => if e.1 = p.1 then (e.1, e.2 ++ [p.2]) else e)
    else acc ++ [(p.1, [p.2])]) []

/-- Embedding of `_assemble_app_recipe`. -/
def assembleAppRecipe (rows : List Row) (sourceUrl : String)
    (sourceTitle : String) : Recipe :=
  let initState : AsmState :=
    ⟨"", "unknown", none, none, [], [], [], 0, none, none, none, none⟩
  let st := rows.foldl asmProcessRow initState
  -- Title fallback 1: first title-shaped labelled row.
  let title1 :=
    if st.title = "" || !looksLikeRecipeTitle st.title then
      match rows.find? (fun row =>
        let text := cleanText row.text
        let label := pyLower (pyStrip row.label)
        labelsList.contains label && text ≠ "" && looksLikeRecipeTitle text) with
      | some row => cleanText row.text
      | none => st.title
    else st.title
  -- Title fallback 2: first title-shaped collected note (removed from notes).
  let titleNotes : String × List String :=
    if title1 = "" || !looksLikeRecipeTitle title1 then
      match st.notes.enum.find? (fun p => looksLikeRecipeTitle p.2) with
      | some (idx, note) =>
        (cleanText note, st.notes.enum.filterMap (fun p =>
          if p.1 = idx then none else some p.2))
      | none => (title1, st.notes)
    else (title1, st.notes)
  let title2 := titleNotes.1
  let notes2 := titleNotes.2
  let title3 := if title2 = "" then "Untitled Recipe" else title2
  let ingredients := mergeWrappedIngredients st.ingredients
  let steps := mergeWrappedSteps st.steps
  let ingredients := inferSauceSectionSplit ingredients steps
  let ingredientSectionsMap := rebuildSections (ingredients.map (fun item =>
    (sectionKey item.sectionName, pyStrip item.name)))
  let stepSectionsMap := rebuildSections (steps.map (fun item =>
    (sectionKey item.sectionName, pyStrip item.text)))
  let ingredientSectionsOut := ingredientSectionsMap.map (fun p =>
    (⟨if p.1 = "Main" then none else some p.1, p.2⟩ : SectionOut))
  let stepSectionsOut := stepSectionsMap.map (fun p =>
    (⟨if p.1 = "Main" then none else some p.1, p.2⟩ : SectionOut))
  let notes3 :=
    if title3 ≠ "" then
      let normalizedTitle := pyLower (cleanText title3)
      notes2.filter (fun note => pyLower (cleanText note) ≠ normalizedTitle)
    else notes2
  let notesText : String := pyStrip ⟨((notes3.map (fun n => n.toList ++ ['\n'])).flatten).dropLast⟩
  let resolvedSourceTitle :=
    if sourceTitle ≠ "" then some sourceTitle else defaultSourceTitle sourceUrl
  let resolvedTotalMinutes :=
    match st.totalMinutes with
    | some v => some v
    | none =>
      match st.prepMinutes, st.cookMinutes with
      | some p, some c => some (p + c)
      | none, some c => some c
      | some p, none => some p
      | none, none => none
  { title := if title3 = "" then "Untitled Recipe" else title3
    sourceURL := if sourceUrl = "" then none else some sourceUrl
    sourceTitle := resolvedSourceTitle
    yields := match st.extractedYields with
      | some y => if y ≠ "" then y else "4 servings"
      | none => "4 servings"
    totalMinutes := resolvedTotalMinutes
    ingredients := ingredients
    steps := steps
    notes := if notesText ≠ "" then some notesText else none
    ingredientSections := ingredientSectionsOut
    stepSections := stepSectionsOut
    stats := ⟨ingredients.length, st.parsedIngredientCount, steps.length,
      notes3.length, ingredientSectionsOut.length, stepSectionsOut.length⟩ }

end Cauldron

namespace Cauldron

/-! ### `schema_model.py` — features, rule engine, classifier wrapper -/

/-- Embedding of `normalize_for_features`. -/
def normalizeForFeatures (text : String) : String :=
  let t := lowerL (pyStripL text.toList)
  let t := match reMatchEnd (rseq [.plus isDigitCh,
      .cls (fun c => c = '.' || c = ')' || c = ':' || c = '-'),
      .star spCls]) [] t with
    | some (e, _) => t.drop e
    | none => t
  let t := match reMatchEnd (rseq [.plus (fun c =>
      c = '•' || c = '●' || c = '○' || c = '◦' || c = '▪' || c = '▫' || c = '-'),
      .star spCls]) [] t with
    | some (e, _) => t.drop e
    | none => t
  ⟨t⟩

/-- `_ACTION_PREFIXES` from `schema_model.py`. -/
def smActionLeads : List String :=
  ["add", "bake", "beat", "boil", "brown", "chop", "combine", "cook", "fold",
   "heat", "let", "marinate", "mash", "mix", "pat", "pour", "preheat",
   "refrigerate", "rest", "roast", "saute", "serve", "simmer", "spread",
   "stir", "toast", "toss", "whisk"]

/-- `_NOTE_PREFIXES` from `schema_model.py`. -/
def smNoteLeads : List String :=
  ["note", "notes", "tip", "tips", "chef\x27s note", "variation",
   "variations", "storage"]

/-- `_HEADER_KEYWORDS` from `schema_model.py`. -/
def smHeaderKeywords : List String :=
  ["ingredients", "ingredient", "instructions", "instruction", "directions",
   "direction", "steps", "step", "method"]

/-- `_INGREDIENT_HEADER_KEYWORDS` from `schema_model.py`. -/
def smIngredientHeaderKeywords : List String :=
  ["ingredient", "ingredients", "for the ingredients", "what you\x27ll need"]

/-- `_STEP_HEADER_KEYWORDS` from `schema_model.py`. -/
def smStepHeaderKeywords : List String :=
  ["instruction", "instructions", "direction", "directions", "step", "steps",
   "method", "preparation"]

/-- `_INGREDIENT_HINTS` from `schema_model.py`. -/
def smIngredientHints : List String :=
  ["to taste", "for garnish", "optional", "divided", "melted"]

/-- Python `str.title()` on the ASCII range. -/
def pyTitleL : List Char → List Char :=
  go false
where
  go (prevCased : Bool) : List Char → List Char
    | [] => []
    | c :: rest =>
      let cased := isAlphaCh c
      let c' := if cased then (if prevCased then lowerCh c else upperCh c) else c
      c' :: go cased rest

/-- The rule-engine quantity class `[\d½¼¾⅓⅔⅛⅜⅝⅞/.\-]` (no whitespace,
unlike the assembler's quantity class). -/
def smQtyCls (c : Char) : Bool :=
  isDigitCh c || fracCls c || c = '/' || c = '.' || c = '-'

/-- The colon-terminated-header block of `rule_based_label` (the
`compact.endswith(":")` branch with its three header returns). -/
def colonHeaderRule (compact : List Char) (words : List (List Char)) :
    Option (String × ℚ) :=
  if compact.getLast? = some ':' then
    let stem := pyStripL compact.dropLast
    if smNoteLeads.any (fun p => p.toList.isPrefixOf stem) then
      some ("header", 98/100)
    else if smHeaderKeywords.contains (⟨stem⟩ : String) then
      some ("header", 98/100)
    else if words.length ≤ 5 then some ("header", 90/100)
    else none
  else none

/-- Embedding of `rule_based_label`: the ordered heuristic dispatch; a
`some (label, confidence)` short-circuits the statistical model. -/
def ruleBasedLabel (text : String) : Option (String × ℚ) :=
  let raw := pyStripL text.toList
  let normalized := normalizeForFeatures text
  let compact := pyStripL (collapseWsL normalized.toList)
  if compact.isEmpty then some ("junk", 99/100)
  else
    let words := pySplitL compact
    if compact.head? = some '<' && compact.getLast? = some '>' then
      some ("junk", 99/100)
    else if smHeaderKeywords.contains (⟨compact⟩ : String) then
      some ("header", 99/100)
    else if "for the ".toList.isPrefixOf compact && compact.getLast? = some ':' then
      some ("header", 97/100)
    else
      colonHeaderRule compact words <|>
      ((if smNoteLeads.any (fun p => (p ++ ":").toList.isPrefixOf compact) then
          some ("note", 97/100)
        else if smNoteLeads.any (fun p => (p ++ " ").toList.isPrefixOf compact) then
          some ("note", 95/100)
        else if (match compact.takeWhile smQtyCls with
            | [] => false
            | _ :: _ => match compact.dropWhile smQtyCls with
              | c :: _ => pyIsSpace c
              | [] => false) then
          some ("ingredient", 95/100)
        else if (reMatch (rseq [.plus isDigitCh, .star spCls,
            .cls (fun c => c = 'x' || c = '×'), .plus spCls]) compact).isSome then
          some ("ingredient", 92/100)
        else if smActionLeads.any (fun p => (p ++ " ").toList.isPrefixOf compact) then
          some ("step", 92/100)
        else if words.length ≥ 8 then
          some ("step", 88/100)
        else if smIngredientHints.any (fun h => containsSubL h.toList compact) then
          some ("ingredient", 86/100)
        else
          let looksLikeTitle :=
            words.length ≥ 2 && words.length ≤ 6
              && !raw.contains ':'
              && !raw.any isDigitCh
              && (match raw.head? with
                  | some c => 'A' ≤ c && c ≤ 'Z'
                  | none => false)
              && raw = pyTitleL raw
          if looksLikeTitle then some ("title", 78/100) else none) :
        Option (String × ℚ))

/-- Embedding of `looks_like_note_header`. -/
def looksLikeNoteHeader (text : String) : Bool :=
  let normalized := pyStripL (normalizeForFeatures text).toList
  let normalized :=
    if normalized.getLast? = some ':' then pyStripL normalized.dropLast
    else normalized
  smNoteLeads.any (fun p => p.toList.isPrefixOf normalized)

/-- Embedding of `_header_section_from_text`. -/
def headerSectionFromText (text : String) : Option String :=
  let normalized := pyStripL (normalizeForFeatures text).toList
  let normalized :=
    if normalized.getLast? = some ':' then pyStripL normalized.dropLast
    else normalized
  if smIngredientHeaderKeywords.contains (⟨normalized⟩ : String) then
    some "ingredients"
  else if smStepHeaderKeywords.contains (⟨normalized⟩ : String) then
    some "steps"
  else if smNoteLeads.any (fun p => p.toList.isPrefixOf normalized) then
    some "notes"
  else none

/-! ### `schema_model.py` — the sequential prediction pass -/

/-- Line row fed to `run_predictions`. -/
structure PredRow where
  docId : String
  lineIndex : ℕ
  text : String
  label : String
deriving DecidableEq, Repr

/-- Tracker state of the sequential pass: previous document id,
previous line text, current section. -/
structure PredState where
  prevDocId : Option String
  prevLineText : String
  currentSection : Option String
deriving DecidableEq, Repr

/-- Per-line output of `run_predictions`. -/
structure ClassificationPrediction where
  docId : String
  lineIndex : ℕ
  gold : String
  predicted : String
  confidence : ℚ
deriving DecidableEq, Repr

/-- One iteration of the `run_predictions` loop, parametrized by the
model's `predict_with_confidence` outcome (`predict` returns the
predicted label and confidence for a line of text; the distribution is
unused by the pass). -/
def processRow (predict : String → String × ℚ) (s : PredState)
    (row : PredRow) : PredState × ClassificationPrediction :=
  let s :=
    if s.prevDocId ≠ some row.docId then
      ⟨some row.docId, "", none⟩
    else s
  let pc := predict row.text
  let normalized := pyStrip (normalizeForFeatures row.text)
  -- line 0: force a title unless the line is a recognized section header
  let pc :=
    if row.lineIndex = 0 && pc.1 ≠ "title" then
      if headerSectionFromText row.text = none then
        ("title", max pc.2 (88/100))
      else pc
    else pc
  -- previous line was a note-style header: force a note
  let pc :=
    if looksLikeNoteHeader s.prevLineText && pc.1 ≠ "header" then
      ("note", max pc.2 (90/100))
    else pc
  -- header handling: section switch, or downgrade into the active section
  let afterHeader : (String × ℚ) × Option String :=
    if pc.1 = "header" then
      match headerSectionFromText row.text with
      | some headerSection => (pc, some headerSection)
      | none =>
        if s.currentSection = some "steps"
            && normalized.toList.getLast? ≠ some ':' then
          (("step", max pc.2 (82/100)), s.currentSection)
        else if s.currentSection = some "ingredients"
            && normalized.toList.getLast? ≠ some ':' then
          (("ingredient", max pc.2 (82/100)), s.currentSection)
        else (pc, s.currentSection)
    else (pc, s.currentSection)
  let pc := afterHeader.1
  let currentSection := afterHeader.2
  -- ingredients section: force stray step/title/junk lines to ingredient
  let pc :=
    if currentSection = some "ingredients" && row.lineIndex > 0
        && ["step", "title", "junk"].contains pc.1 then
      if !smActionLeads.any (fun p => (p ++ " ").toList.isPrefixOf
          normalized.toList) then
        ("ingredient", max pc.2 (82/100))
      else pc
    else pc
  -- steps section: force action-verb title/ingredient lines to step
  let pc :=
    if currentSection = some "steps" && ["title", "ingredient"].contains pc.1
        && row.lineIndex > 0 then
      if smActionLeads.any (fun p => (p ++ " ").toList.isPrefixOf
          normalized.toList) then
        ("step", max pc.2 (82/100))
      else pc
    else pc
  (⟨some row.docId, row.text, currentSection⟩,
   ⟨row.docId, row.lineIndex, row.label, pc.1, pc.2⟩)

/-- Embedding of `run_predictions`: sort rows by `(doc_id, line_index)`
and run the sequential pass. -/
def runPredictions (predict : String → String × ℚ) (rows : List PredRow) :
    List ClassificationPrediction :=
  let sortedRows := rows.insertionSort (fun a b =>
    a.docId < b.docId ∨ (a.docId = b.docId ∧ a.lineIndex ≤ b.lineIndex))
  (sortedRows.foldl (fun (acc : PredState × List ClassificationPrediction) row =>
    let step := processRow predict acc.1 row
    (step.1, acc.2 ++ [step.2])) (⟨none, "", none⟩, [])).2

/-- Tracker state after a run (for reachability arguments). -/
def runPredictionsState (predict : String → String × ℚ)
    (rows : List PredRow) : PredState :=
  let sortedRows := rows.insertionSort (fun a b =>
    a.docId < b.docId ∨ (a.docId = b.docId ∧ a.lineIndex ≤ b.lineIndex))
  (sortedRows.foldl (fun (acc : PredState × List ClassificationPrediction) row =>
    let step := processRow predict acc.1 row
    (step.1, acc.2 ++ [step.2])) (⟨none, "", none⟩, [])).1

end Cauldron

namespace Cauldron

/-- `LABELS` from `schema_model.py` (the classifier's default label
tuple). -/
def smLabels : List String :=
  ["title", "ingredient", "step", "note", "header", "junk"]

/-- Distribution built by the rule-engine branch of
`predict_with_confidence`: full confidence on the heuristic label, the
remainder spread uniformly over the other five labels.  (The map form
relies on the rule engine only emitting labels of `smLabels`, which
`ruleBasedLabel_sound` proves.) -/
def heuristicProbs (label : String) (confidence : ℚ) : List (String × ℚ) :=
  smLabels.map (fun c =>
    (c, if c = label then confidence else max 0 (1 - confidence) / 5))

/-- Python `max(scores, key=scores.get)`: the first key attaining the
maximal value, in iteration order. -/
def argmaxFirst (scores : List (String × ℚ)) : String :=
  match scores with
  | [] => ""
  | p :: rest =>
    (rest.foldl (fun best q => if q.2 > best.2 then q else best) p).1

/-- Embedding of `NGramNaiveBayesClassifier.predict_with_confidence`,
parametrized by the fitted model's per-label log score
(`_log_prior + _log_likelihood`, a real-valued function of the label
for the given text) and by the exponential map used by the softmax
normalization (`math.exp`, abstracted as any positive map in the
exact-rational model). -/
def listMaxSnd (scores : List (String × ℚ)) : ℚ :=
  match scores with
  | [] => 0
  | p :: rest => rest.foldl (fun m q => max m q.2) p.2

/-- The softmax dict of the statistical branch: `max(log_scores.values())`
shift, `math.exp`, `sum(...) or 1.0` normalizer, per-label division. -/
def nbProbs (expf : ℚ → ℚ) (logScore : String → ℚ) : List (String × ℚ) :=
  let logScores := smLabels.map (fun l => (l, logScore l))
  let maxLog := listMaxSnd logScores
  let expScores := logScores.map (fun p => (p.1, expf (p.2 - maxLog)))
  let sumExp := (expScores.map (·.2)).sum
  let normalizer := if sumExp = 0 then 1 else sumExp
  expScores.map (fun p => (p.1, p.2 / normalizer))

def predictWithConfidence (expf : ℚ → ℚ) (logScore : String → ℚ)
    (text : String) : String × ℚ × List (String × ℚ) :=
  match ruleBasedLabel text with
  | some (label, confidence) =>
    (label, confidence, heuristicProbs label confidence)
  | none =>
    let bestLabel := argmaxFirst (smLabels.map (fun l => (l, logScore l)))
    let probs := nbProbs expf logScore
    let confidence := ((probs.find? (fun p => p.1 = bestLabel)).map (·.2)).getD 0
    (bestLabel, confidence, probs)

/-! ### `schema_model.py` — holdout split -/

/-- Embedding of `split_docs_for_holdout`, parametrized by the hash
bucketing `doc_id ↦ int(sha256(doc_id)[:8], 16) / 0xFFFFFFFF`
(abstracted as an arbitrary `bucket` map, which the SHA-256 instance
is one case of).  Sets are represented as sorted duplicate-free lists;
`sorted(set(doc_ids))` is `dedup` followed by a stable sort. -/
def holdoutPartition (bucket : String → ℚ) (ratio : ℚ) (sortedIds : List String) :
    List String × List String :=
  (sortedIds.filter (fun d => !(bucket d < ratio)),
   sortedIds.filter (fun d => bucket d < ratio))

/-- The two sequential "guarantee non-empty split" rebalances at the end
of `split_docs_for_holdout`: move the least element of the non-empty
side when the other side is empty (`sorted(side)[0]` is the head, the
sides being sorted sublists of the sorted id list). -/
def holdoutRebalance (pr : List String × List String) :
    List String × List String :=
  let afterFirst : List String × List String :=
    if pr.2.isEmpty && !pr.1.isEmpty then
      match pr.1 with
      | moved :: rest => (rest, [moved])
      | [] => pr
    else pr
  if afterFirst.1.isEmpty && !afterFirst.2.isEmpty then
    match afterFirst.2 with
    | moved :: rest => ([moved], rest)
    | [] => afterFirst
  else afterFirst

def splitDocsForHoldout (bucket : String → ℚ) (ratio : ℚ)
    (docIds : List String) : List String × List String :=
  holdoutRebalance
    (holdoutPartition bucket ratio (docIds.dedup.insertionSort (fun a b => a ≤ b)))

/-! ### `regression_metrics.py` — harness aggregation and exit code -/

/-- Embedding of `regression_metrics.main` past fixture loading: given
the per-fixture `(leakage_rate, swap_rate)` pairs produced by
`_score_case`, compute the mean rates and the process exit code.
`none` models the `SystemExit("No regression fixtures found")` raised
for an empty fixture directory. -/
def regressionMain (scores : List (ℚ × ℚ)) : Option (ℕ × ℚ × ℚ) :=
  if scores.isEmpty then none
  else
    let noteLeakageRate := (scores.map (·.1)).sum / scores.length
    let swapRate := (scores.map (·.2)).sum / scores.length
    some (if noteLeakageRate ≤ 5/100 && swapRate ≤ 8/100 then 0 else 1,
      noteLeakageRate, swapRate)

/-! ### `lab_handler.py` — retrain lifecycle -/

/-- Abstract artifact store and live-predictor state of the retrain
lifecycle: blobs are abstract byte strings (naturals); `backupModel`
and `backupSplit` are the `LOCAL_TMP_DIR` backup copies taken at the
start of `_retrain_model`; `predictorModel` is the model held by the
live `PREDICTOR`. -/
structure LifecycleState where
  modelFile : Option ℕ
  splitFile : Option ℕ
  backupModel : Option ℕ
  backupSplit : Option ℕ
  predictorModel : Option ℕ
deriving DecidableEq, Repr

/-- Result record of a retrain run. -/
structure RetrainOutcome where
  finalState : LifecycleState
  exportRan : Bool
  rolledBack : Bool
  reloaded : Bool
  success : Bool
deriving DecidableEq, Repr

/-- `PREDICTOR.reload()`: load the current model artifact into the live
predictor; fails (`FileNotFoundError`) when the artifact is missing. -/
def predictorReload (st : LifecycleState) : LifecycleState × Bool :=
  match st.modelFile with
  | some m => ({ st with predictorModel := some m }, true)
  | none => (st, false)

/-- The `restore_backups` closure of `_retrain_model`: copy the backups
back over the artifacts; the returned flag (`restored_any`) is set only
by the model restore, exactly as in the source. -/
def restoreBackups (st : LifecycleState) : LifecycleState × Bool :=
  let withModel : LifecycleState × Bool :=
    match st.backupModel with
    | some b => ({ st with modelFile := some b }, true)
    | none => (st, false)
  let st1 := withModel.1
  let st2 :=
    match st1.backupSplit with
    | some b => { st1 with splitFile := some b }
    | none => st1
  (st2, withModel.2)

/-- Embedding of `_retrain_model` as a state machine over the abstract
store.  `validateOk` is the validate stage's exit status,
`trainResult` the train stage's outcome (`some (model, split)` = the
artifacts it wrote; `none` = nonzero exit), `gateOk` the
`_run_metrics_pipeline` verdict (`metrics["ok"]`: evaluation,
fixed-holdout and regression exits all zero and every threshold met),
and `exportOk` the export stage's exit status (consulted only when the
gate passes — the gate-fail branch builds a synthetic "skipped"
process instead of running the export). -/
def retrainModel (st0 : LifecycleState) (validateOk : Bool)
    (trainResult : Option (ℕ × ℕ)) (gateOk : Bool) (exportOk : Bool) :
    RetrainOutcome :=
  let st := { st0 with backupModel := st0.modelFile, backupSplit := st0.splitFile }
  if !validateOk then ⟨st, false, false, false, false⟩
  else match trainResult with
  | none => ⟨st, false, false, false, false⟩
  | some (newModel, newSplit) =>
    let st := { st with modelFile := some newModel, splitFile := some newSplit }
    if gateOk then
      if exportOk then
        let reload := predictorReload st
        ⟨reload.1, true, false, reload.2, reload.2⟩
      else
        let restored := restoreBackups st
        let reload :=
          if restored.2 then predictorReload restored.1 else (restored.1, false)
        ⟨reload.1, true, restored.2, reload.2, false⟩
    else
      let restored := restoreBackups st
      let reload :=
        if restored.2 then predictorReload restored.1 else (restored.1, false)
      ⟨reload.1, false, restored.2, reload.2, false⟩

end Cauldron

namespace Cauldron

/-! ## Claim theorems -/

set_option maxRecDepth 1000000

/-- The labelled lines of the spec's Lemon Bars example. -/
def lemonBarsRows : List Row :=
  [⟨"Lemon Bars", "title"⟩, ⟨"Ingredients:", "header"⟩,
   ⟨"2 cups sugar", "ingredient"⟩, ⟨"Instructions:", "header"⟩,
   ⟨"1. Mix well. 2. Bake for 20 minutes.", "step"⟩]

/-- C1: evaluation of the assembler at the spec's Lemon Bars example.
The claim asks for title `"Lemon Bars"`, exactly one ingredient
`"sugar"` with quantity `{value: 2, unit: "cup"}`, and two steps whose
second carries the timer `{seconds: 1200, label: "Bake"}`.  The code
meets the title/step/timer part but produces an empty ingredient list:
`"2 cups sugar"` parses to name `"sugar"` with quantity 2 cup, and
`_should_drop_ingredient_entry` then discards it because
`_is_ocr_artifact_line("sugar")` is true (a word of at most six letters
outside the keep-list `{salt, zest, oil, rice, egg, eggs}`), even
though a quantity was recovered — contradicting the spec's §4.3 rule
that entries are dropped only when no numeric quantity is recoverable. -/
theorem c1_lemon_bars_assembly_eval :
    (assembleAppRecipe lemonBarsRows "" "").title = "Lemon Bars" ∧
    ((assembleAppRecipe lemonBarsRows "" "").steps.map
      (fun s => (s.text, s.timers))) =
      [("Mix well.", []), ("Bake for 20 minutes.", [⟨1200, "Bake"⟩])] ∧
    parseIngredientText "2 cups sugar" =
      ("sugar", some ⟨2, none, "cup"⟩, [], none) ∧
    shouldDropIngredientEntry "sugar" (some ⟨2, none, "cup"⟩) = true ∧
    (assembleAppRecipe lemonBarsRows "" "").ingredients = [] := by
  with_unfolding_all decide

/-- C2: in a retrain run where validation and training succeed but the
metrics gate fails, the export stage is skipped, rollback restores the
pre-run model and split backups (the model artifact is byte-identical
to its pre-run backup), and the live predictor is reloaded from the
restored artifact, so subsequent predict calls use the pre-run model.
The export-stage outcome `eo` is irrelevant — the stage never runs. -/
theorem c2_gate_fail_rollback (st0 : LifecycleState) (m0 sp0 : ℕ)
    (newModel newSplit : ℕ) (eo : Bool)
    (hm : st0.modelFile = some m0) (hs : st0.splitFile = some sp0) :
    (retrainModel st0 true (some (newModel, newSplit)) false eo).exportRan
        = false ∧
    (retrainModel st0 true (some (newModel, newSplit)) false eo).rolledBack
        = true ∧
    (retrainModel st0 true (some (newModel, newSplit)) false eo).finalState.backupModel
        = some m0 ∧
    (retrainModel st0 true (some (newModel, newSplit)) false eo).finalState.modelFile
        = some m0 ∧
    (retrainModel st0 true (some (newModel, newSplit)) false eo).finalState.splitFile
        = some sp0 ∧
    (retrainModel st0 true (some (newModel, newSplit)) false eo).reloaded
        = true ∧
    (retrainModel st0 true (some (newModel, newSplit)) false eo).finalState.predictorModel
        = some m0 ∧
    (retrainModel st0 true (some (newModel, newSplit)) false eo).success
        = false := by
  simp [retrainModel, restoreBackups, predictorReload, hm, hs]

/-- Witness for C2 at a concrete pre-run state. -/
theorem c2_gate_fail_rollback_witness :
    (({ modelFile := some 1, splitFile := some 2, backupModel := none,
        backupSplit := none, predictorModel := some 1 } :
        LifecycleState).modelFile = some 1) ∧
    (retrainModel
      { modelFile := some 1, splitFile := some 2, backupModel := none,
        backupSplit := none, predictorModel := some 1 }
      true (some (7, 8)) false false).finalState.modelFile = some 1 ∧
    (retrainModel
      { modelFile := some 1, splitFile := some 2, backupModel := none,
        backupSplit := none, predictorModel := some 1 }
      true (some (7, 8)) false false).finalState.predictorModel = some 1 := by
  refine ⟨rfl, ?_, ?_⟩
  · exact (c2_gate_fail_rollback _ 1 2 7 8 false rfl rfl).2.2.2.1
  · exact (c2_gate_fail_rollback _ 1 2 7 8 false rfl rfl).2.2.2.2.2.2.1

/-- C3: the regression harness exits with status 1 exactly when the
computed mean `note_leakage_rate` exceeds 0.05 or the computed mean
`ingredient_step_swap_rate` exceeds 0.08, and with status 0 otherwise
(for every non-empty fixture set; an empty set aborts with
`SystemExit`). -/
theorem c3_regression_exit_code (scores : List (ℚ × ℚ))
    (h : scores ≠ []) :
    (regressionMain scores).map (fun r => r.1) =
      some (if 5/100 < (scores.map (fun p => p.1)).sum / scores.length
              ∨ 8/100 < (scores.map (fun p => p.2)).sum / scores.length
            then 1 else 0) := by
  have hne : scores.isEmpty = false := by
    cases scores with
    | nil => exact absurd rfl h
    | cons a l => rfl
  unfold regressionMain
  rw [hne]
  simp only [Bool.false_eq_true, if_false, Option.map_some]
  by_cases h1 : (scores.map (fun p => p.1)).sum / scores.length ≤ 5/100 <;>
    by_cases h2 : (scores.map (fun p => p.2)).sum / scores.length ≤ 8/100
  · simp [h1, h2, not_lt.mpr h1, not_lt.mpr h2]
  · simp [h1, h2, not_le.mp h2]
  · simp [h1, h2, not_le.mp h1]
  · simp [h1, h2, not_le.mp h1]

/-- Witness for C3 on a one-fixture set with zero rates. -/
theorem c3_regression_exit_code_witness :
    ([((0 : ℚ), (0 : ℚ))] ≠ ([] : List (ℚ × ℚ))) ∧
    (regressionMain [((0 : ℚ), (0 : ℚ))]).map (fun r => r.1) = some 0 := by
  constructor
  · simp
  · have h := c3_regression_exit_code [((0 : ℚ), (0 : ℚ))] (by simp)
    rw [h]
    norm_num


/-- C9: for at least two distinct document ids and any holdout ratio,
`split_docs_for_holdout` returns two lists whose members are disjoint,
whose union is exactly the input id set, and which are both non-empty —
for every bucketing map, hence in particular for the SHA-256 one. -/
theorem c9_split_docs_partition (bucket : String → ℚ) (ratio : ℚ)
    (docIds : List String) (h2 : 2 ≤ docIds.dedup.length)
    (t h : List String)
    (hsplit : splitDocsForHoldout bucket ratio docIds = (t, h)) :
    (∀ x, (x ∈ t ∨ x ∈ h) ↔ x ∈ docIds) ∧
    (∀ x, x ∈ t → x ∉ h) ∧ t ≠ [] ∧ h ≠ [] := by
  classical
  have hperm : List.Perm (docIds.dedup.insertionSort (fun a b => a ≤ b))
      docIds.dedup := List.perm_insertionSort _ _
  set S := docIds.dedup.insertionSort (fun a b => a ≤ b) with hSdef
  have hmemS : ∀ x, x ∈ S ↔ x ∈ docIds := fun x => by
    rw [hperm.mem_iff, List.mem_dedup]
  have hnodup : S.Nodup := hperm.nodup_iff.mpr docIds.nodup_dedup
  have hlen : 2 ≤ S.length := by rw [hperm.length_eq]; exact h2
  set T0 := S.filter (fun d => !(bucket d < ratio)) with hT0def
  set H0 := S.filter (fun d => decide (bucket d < ratio)) with hH0def
  have hsplit' : holdoutRebalance (T0, H0) = (t, h) := hsplit
  have f1 : ∀ x, (x ∈ T0 ∨ x ∈ H0) ↔ x ∈ S := by
    intro x
    constructor
    · rintro (hx | hx) <;> exact (List.mem_filter.mp hx).1
    · intro hx
      by_cases hb : bucket x < ratio
      · right; exact List.mem_filter.mpr ⟨hx, by simp [hb]⟩
      · left; exact List.mem_filter.mpr ⟨hx, by simp [hb]⟩
  have f2 : ∀ x, x ∈ T0 → x ∉ H0 := by
    intro x hxT hxH
    have d1 := (List.mem_filter.mp hxT).2
    have d2 := (List.mem_filter.mp hxH).2
    simp at d1 d2
    exact absurd d2 (not_lt.mpr d1)
  obtain ⟨m, r1, rest, hSc⟩ : ∃ m r1 rest, S = m :: r1 :: rest := by
    rcases hS : S with _ | ⟨a, _ | ⟨b, l2⟩⟩
    · rw [hS] at hlen; simp at hlen
    · rw [hS] at hlen; simp at hlen
    · exact ⟨a, b, l2, rfl⟩
  have hcaseH : H0 = [] → T0 = S := by
    intro hH
    rw [hT0def]
    apply List.filter_eq_self.mpr
    intro x hx
    have hfil : S.filter (fun d => decide (bucket d < ratio)) = [] := by
      rw [← hH0def]; exact hH
    have hnot := List.filter_eq_nil_iff.mp hfil x hx
    simp only [decide_eq_true_eq] at hnot
    simp [hnot]
  have hcaseT : T0 = [] → H0 = S := by
    intro hT
    rw [hH0def]
    apply List.filter_eq_self.mpr
    intro x hx
    have hfil : S.filter (fun d => !(bucket d < ratio)) = [] := by
      rw [← hT0def]; exact hT
    have hnot := List.filter_eq_nil_iff.mp hfil x hx
    simp only [Bool.not_eq_true', decide_eq_false_iff_not, not_not] at hnot
    simp [hnot]
  have hnodupS := hSc ▸ hnodup
  have hmNotIn : m ∉ r1 :: rest := (List.nodup_cons.mp hnodupS).1
  by_cases hHempty : H0 = []
  · have hT0S : T0 = S := hcaseH hHempty
    have hres : holdoutRebalance (T0, H0) = (r1 :: rest, [m]) := by
      rw [hHempty, hT0S, hSc]; rfl
    rw [hres] at hsplit'
    injection hsplit' with ht hh
    subst ht; subst hh
    refine ⟨?_, ?_, by simp, by simp⟩
    · intro x
      rw [← hmemS x, hSc]
      simp [List.mem_cons]
      try tauto
    · intro x hx hxm
      simp only [List.mem_singleton] at hxm
      subst hxm
      exact hmNotIn hx
  · by_cases hTempty : T0 = []
    · have hH0S : H0 = S := hcaseT hTempty
      have hres : holdoutRebalance (T0, H0) = ([m], r1 :: rest) := by
        rw [hTempty, hH0S, hSc]; rfl
      rw [hres] at hsplit'
      injection hsplit' with ht hh
      subst ht; subst hh
      refine ⟨?_, ?_, by simp, by simp⟩
      · intro x
        rw [← hmemS x, hSc]
        simp [List.mem_cons]
        try tauto
      · intro x hx hxm
        simp only [List.mem_singleton] at hx
        subst hx
        exact hmNotIn hxm
    · obtain ⟨tm, trest, hTc⟩ : ∃ a l, T0 = a :: l := by
        rcases hT : T0 with _ | ⟨a, l⟩
        · exact absurd hT hTempty
        · exact ⟨a, l, rfl⟩
      obtain ⟨hm, hrest, hHc⟩ : ∃ a l, H0 = a :: l := by
        rcases hH : H0 with _ | ⟨a, l⟩
        · exact absurd hH hHempty
        · exact ⟨a, l, rfl⟩
      have hres : holdoutRebalance (T0, H0) = (T0, H0) := by
        rw [hTc, hHc]; rfl
      rw [hres] at hsplit'
      injection hsplit' with ht hh
      subst ht; subst hh
      refine ⟨?_, f2, by rw [hTc]; simp, by rw [hHc]; simp⟩
      · intro x
        rw [← hmemS x]
        exact f1 x


/-- Witness for C9 on two documents that both hash into the train side. -/
theorem c9_split_docs_partition_witness :
    (2 ≤ (["a", "b"] : List String).dedup.length) ∧
    splitDocsForHoldout (fun _ => 0) 0 ["a", "b"] = (["b"], ["a"]) ∧
    ((∀ x, (x ∈ (["b"] : List String) ∨ x ∈ (["a"] : List String)) ↔
        x ∈ (["a", "b"] : List String)) ∧
     (∀ x, x ∈ (["b"] : List String) → x ∉ (["a"] : List String)) ∧
     (["b"] : List String) ≠ [] ∧ (["a"] : List String) ≠ []) := by
  refine ⟨by decide, by with_unfolding_all decide, ?_⟩
  exact c9_split_docs_partition (fun _ => 0) 0 ["a", "b"] (by decide)
    ["b"] ["a"] (by with_unfolding_all decide)

/-- C8: assembling the same labelled rows with the same source URL and
title twice yields identical Recipe output — the assembler is a pure
function of its inputs. -/
theorem c8_assembly_deterministic (rows : List Row)
    (sourceUrl sourceTitle : String) :
    assembleAppRecipe rows sourceUrl sourceTitle =
      assembleAppRecipe rows sourceUrl sourceTitle := rfl

/-! ### Soundness of the rule engine (for C10) -/

theorem colonHeaderRule_sound (compact : List Char) (words : List (List Char))
    (r : String × ℚ) (h : colonHeaderRule compact words = some r) :
    r.1 = "header" ∧ 0 ≤ r.2 ∧ r.2 ≤ 1 := by
  unfold colonHeaderRule at h
  dsimp only [] at h
  split_ifs at h <;>
    first
    | (injection h with h1
       rw [← h1]
       exact ⟨rfl, by norm_num, by norm_num⟩)
    | injection h

set_option maxHeartbeats 1000000 in
theorem ruleBasedLabel_sound (text : String) (l : String) (c : ℚ)
    (h : ruleBasedLabel text = some (l, c)) :
    l ∈ smLabels ∧ 0 ≤ c ∧ c ≤ 1 := by
  unfold ruleBasedLabel at h
  dsimp only [] at h
  set compact := pyStripL (collapseWsL (normalizeForFeatures text).toList)
    with hcompact
  set raw := pyStripL text.toList with hraw
  set words := pySplitL compact with hwords
  clear_value compact raw words
  rcases hch : colonHeaderRule compact words with _ | r
  · rw [hch] at h
    rw [Option.none_orElse] at h
    repeat'
      first
      | (injection h with h1
         injection h1 with h2 h3
         subst h2
         subst h3
         exact ⟨by decide, by norm_num, by norm_num⟩)
      | injection h
      | (rw [ite_eq_iff] at h
         rcases h with ⟨-, h⟩ | ⟨-, h⟩)
  · rw [hch] at h
    rw [Option.some_orElse] at h
    obtain ⟨hr1, hr2, hr3⟩ := colonHeaderRule_sound compact words r hch
    repeat'
      first
      | (injection h with h1
         injection h1 with h2 h3
         subst h2
         subst h3
         exact ⟨by decide, by norm_num, by norm_num⟩)
      | (injection h with h1
         subst h1
         exact ⟨by rw [show l = "header" from hr1]; decide, hr2, hr3⟩)
      | injection h
      | (rw [ite_eq_iff] at h
         rcases h with ⟨-, h⟩ | ⟨-, h⟩)


/-! ### C10: predict_with_confidence distribution -/

/-- The `foldl` in `argmaxFirst` only ever returns the accumulator or a
list element. -/
theorem argmax_foldl_mem (rest : List (String × ℚ)) (p : String × ℚ) :
    rest.foldl (fun best q => if q.2 > best.2 then q else best) p ∈ p :: rest := by
  induction rest generalizing p with
  | nil => simp
  | cons a t ih =>
    rw [List.foldl_cons]
    by_cases hc : a.2 > p.2
    · rw [if_pos hc]
      exact List.mem_cons_of_mem p (ih a)
    · rw [if_neg hc]
      rcases List.mem_cons.1 (ih p) with h1 | h1
      · rw [h1]
        exact List.mem_cons_self _ _
      · exact List.mem_cons_of_mem _ (List.mem_cons_of_mem _ h1)

/-- `max(scores, key=scores.get)` returns one of the dict keys. -/
theorem argmaxFirst_mem (scores : List (String × ℚ)) (h : scores ≠ []) :
    argmaxFirst scores ∈ scores.map (fun p => p.1) := by
  match scores with
  | [] => exact absurd rfl h
  | p :: rest =>
    show (rest.foldl (fun best q => if q.2 > best.2 then q else best) p).1
        ∈ (p :: rest).map (fun q => q.1)
    exact List.mem_map_of_mem _ (argmax_foldl_mem rest p)

/-- Looking up a key in a keyed map over a list containing it returns
that key with its mapped value. -/
theorem find_keyed_map (f : String → ℚ) (L : List String) (l : String)
    (hl : l ∈ L) :
    (L.map (fun x => (x, f x))).find? (fun p => p.1 = l) = some (l, f l) := by
  induction L with
  | nil => cases hl
  | cons a t ih =>
    by_cases ha : a = l
    · subst ha
      simp [List.find?]
    · rw [List.map_cons, List.find?_cons_of_neg]
      · refine ih ?_
        rcases List.mem_cons.1 hl with h1 | h1
        · exact absurd h1.symm ha
        · exact h1
      · simp [ha]

theorem sum_map_div (L : List String) (f : String → ℚ) (s : ℚ) :
    (L.map (fun x => f x / s)).sum = (L.map f).sum / s := by
  induction L with
  | nil => simp
  | cons a t ih => simp [ih, add_div]

theorem sum_map_pos (L : List String) (hL : L ≠ []) (g : String → ℚ)
    (hg : ∀ l, 0 < g l) : 0 < (L.map g).sum := by
  match L with
  | a :: t =>
    rw [List.map_cons, List.sum_cons]
    have ht : 0 ≤ (t.map g).sum := by
      refine List.sum_nonneg ?_
      intro x hx
      rcases List.mem_map.1 hx with ⟨y, -, rfl⟩
      exact le_of_lt (hg y)
    linarith [hg a]


theorem nbProbs_collapse (expf : ℚ → ℚ) (logScore : String → ℚ) (M N : ℚ)
    (hM : M = listMaxSnd (smLabels.map (fun l => (l, logScore l))))
    (hN : N = (if (smLabels.map (fun l => expf (logScore l - M))).sum = 0 then 1
               else (smLabels.map (fun l => expf (logScore l - M))).sum)) :
    nbProbs expf logScore = smLabels.map (fun l => (l, expf (logScore l - M) / N)) := by
  subst hM
  subst hN
  unfold nbProbs
  simp [List.map_map, Function.comp_def]

/-- C10: for every fitted model (any positive exponential map and any
per-label log score) and every input text, `predict_with_confidence`
returns a probability table keyed exactly by the six labels, with
non-negative entries summing to 1, and the returned confidence is the
table entry of the returned label — in both the rule-engine branch and
the statistical softmax branch. -/
theorem c10_predict_distribution (expf : ℚ → ℚ) (logScore : String → ℚ)
    (text : String) (hpos : ∀ x, 0 < expf x) :
    ((predictWithConfidence expf logScore text).2.2.map (fun p => p.1) = smLabels) ∧
    (((predictWithConfidence expf logScore text).2.2.map (fun p => p.2)).sum = 1) ∧
    (∀ p ∈ (predictWithConfidence expf logScore text).2.2, 0 ≤ p.2) ∧
    ((predictWithConfidence expf logScore text).2.2.find?
        (fun p => p.1 = (predictWithConfidence expf logScore text).1) =
      some ((predictWithConfidence expf logScore text).1,
        (predictWithConfidence expf logScore text).2.1)) := by
  rcases hrb : ruleBasedLabel text with _ | ⟨label, confidence⟩
  · -- statistical (Naive Bayes softmax) branch
    have hne : smLabels ≠ [] := by simp [smLabels]
    set M := listMaxSnd (smLabels.map (fun l => (l, logScore l))) with hM
    set g : String → ℚ := fun l => expf (logScore l - M) with hg
    have hgpos : ∀ l, 0 < g l := fun l => hpos _
    have hspos : 0 < (smLabels.map g).sum := sum_map_pos smLabels hne g hgpos
    set N := if (smLabels.map g).sum = 0 then 1 else (smLabels.map g).sum with hN
    have hNs : N = (smLabels.map g).sum := by rw [hN, if_neg (ne_of_gt hspos)]
    have hNpos : 0 < N := hNs ▸ hspos
    have hcoll : nbProbs expf logScore = smLabels.map (fun l => (l, g l / N)) := by
      have := nbProbs_collapse expf logScore M N hM (by rw [hN, hg])
      rw [this, hg]
    have hbest : argmaxFirst (smLabels.map (fun l => (l, logScore l))) ∈ smLabels := by
      have h1 := argmaxFirst_mem (smLabels.map (fun l => (l, logScore l)))
        (by simp [smLabels])
      simpa [List.map_map] using h1
    have hfind := find_keyed_map (fun l => g l / N) smLabels
      (argmaxFirst (smLabels.map (fun l => (l, logScore l)))) hbest
    simp only [predictWithConfidence, hrb]
    rw [hcoll]
    refine ⟨?_, ?_, ?_, ?_⟩
    · simp [List.map_map, Function.comp_def]
    · rw [List.map_map]
      show (smLabels.map (fun l => g l / N)).sum = 1
      rw [sum_map_div, ← hNs]
      exact div_self (ne_of_gt hNpos)
    · intro p hp
      rcases List.mem_map.1 hp with ⟨l, -, rfl⟩
      exact div_nonneg (le_of_lt (hgpos l)) (le_of_lt hNpos)
    · rw [hfind]
      simp
  · -- rule-engine (heuristic) branch
    obtain ⟨hmem, hc0, hc1⟩ := ruleBasedLabel_sound text label confidence hrb
    simp only [predictWithConfidence, hrb]
    refine ⟨?_, ?_, ?_, ?_⟩
    · simp [heuristicProbs, List.map_map, Function.comp_def]
    · have hmax : max 0 (1 - confidence) = 1 - confidence :=
        max_eq_right (by linarith)
      have hmem6 : label = "title" ∨ label = "ingredient" ∨ label = "step" ∨
          label = "note" ∨ label = "header" ∨ label = "junk" := by
        simpa [smLabels] using hmem
      rcases hmem6 with rfl | rfl | rfl | rfl | rfl | rfl <;>
        · simp +decide [heuristicProbs, smLabels, hmax]
          ring
    · intro p hp
      simp only [heuristicProbs] at hp
      rcases List.mem_map.1 hp with ⟨c, -, rfl⟩
      dsimp only []
      split
      · exact hc0
      · exact div_nonneg (le_max_left _ _) (by norm_num)
    · have hfind := find_keyed_map
        (fun c => if c = label then confidence else max 0 (1 - confidence) / 5)
        smLabels label hmem
      simpa [heuristicProbs] using hfind


theorem c10_predict_distribution_witness :
    (∀ x : ℚ, 0 < (fun _ : ℚ => (1 : ℚ)) x) ∧
    ((predictWithConfidence (fun _ : ℚ => (1 : ℚ)) (fun _ : String => (0 : ℚ))
        "garlic").2.2.map (fun p => p.1) = smLabels) ∧
    (((predictWithConfidence (fun _ : ℚ => (1 : ℚ)) (fun _ : String => (0 : ℚ))
        "garlic").2.2.map (fun p => p.2)).sum = 1) := by
  refine ⟨fun x => one_pos, ?_, ?_⟩
  · exact (c10_predict_distribution (fun _ => 1) (fun _ => 0) "garlic"
      (fun x => one_pos)).1
  · exact (c10_predict_distribution (fun _ => 1) (fun _ => 0) "garlic"
      (fun x => one_pos)).2.1


/-! ### C4, C5: run_predictions overrides -/

/-- Amended C4 override rule: the extra `looksLikeNoteHeader` hypothesis
(absent from the claim) is required, because the note-header override
runs before the ingredients-section override. -/
theorem c4_ingredient_override (predict : String → String × ℚ)
    (s : PredState) (row : PredRow)
    (hdoc : s.prevDocId = some row.docId)
    (hidx : 0 < row.lineIndex)
    (hsec : s.currentSection = some "ingredients")
    (hpred : (predict row.text).1 = "step" ∨ (predict row.text).1 = "title" ∨
      (predict row.text).1 = "junk")
    (hnote : looksLikeNoteHeader s.prevLineText = false)
    (hverb : smActionLeads.any (fun p => (p ++ " ").toList.isPrefixOf
      (pyStrip (normalizeForFeatures row.text)).toList) = false) :
    (processRow predict s row).2.predicted = "ingredient" ∧
    82/100 ≤ (processRow predict s row).2.confidence := by
  rcases hpred with h | h | h <;>
    · simp +decide [processRow, hdoc, hsec, hnote, h, hidx, hidx.ne']
      rw [if_pos (by simpa using hverb)]
      exact ⟨rfl, le_max_right _ _⟩


theorem c4_ingredient_override_witness :
    (processRow (fun _ => ("step", 1/2))
        ⟨some "doc", "1 cup flour", some "ingredients"⟩
        ⟨"doc", 2, "2783 ripe avocados", "ingredient"⟩).2.predicted =
      "ingredient" ∧
    82/100 ≤ (processRow (fun _ => ("step", 1/2))
        ⟨some "doc", "1 cup flour", some "ingredients"⟩
        ⟨"doc", 2, "2783 ripe avocados", "ingredient"⟩).2.confidence :=
  c4_ingredient_override (fun _ => ("step", 1/2)) _ _ rfl (by decide) rfl
    (Or.inl rfl) (by with_unfolding_all decide) (by with_unfolding_all decide)

/-- Prediction stub for the C4 counterexample document. -/
def c4predict (t : String) : String × ℚ :=
  if t = "Ingredients:" then ("header", 99/100)
  else if t = "2783 ripe avocados" then ("step", 6/10)
  else ("note", 6/10)

/-- The C4 counterexample document: an ingredients section containing a
note-style header line followed by a step-predicted quantity line. -/
def c4rows : List PredRow :=
  [⟨"doc", 0, "Ingredients:", "header"⟩,
   ⟨"doc", 1, "Tips for success", "note"⟩,
   ⟨"doc", 2, "2783 ripe avocados", "ingredient"⟩]

theorem c4_counterexample :
    (runPredictionsState c4predict (c4rows.take 2)).currentSection =
      some "ingredients" ∧
    (c4predict "2783 ripe avocados").1 = "step" ∧
    (smActionLeads.any (fun p => (p ++ " ").toList.isPrefixOf
      (pyStrip (normalizeForFeatures "2783 ripe avocados")).toList)) = false ∧
    ((runPredictions c4predict c4rows).map (fun p => p.predicted)) =
      ["header", "note", "note"] := by
  with_unfolding_all decide


/-- Amended C5 note override: forced to note only when the classifier
did not predict header (and the tracker is mid-document). -/
theorem c5_note_after_note_header (predict : String → String × ℚ)
    (s : PredState) (row : PredRow)
    (hdoc : s.prevDocId = some row.docId)
    (hidx : 0 < row.lineIndex)
    (hnote : looksLikeNoteHeader s.prevLineText = true)
    (hpred : (predict row.text).1 ≠ "header") :
    (processRow predict s row).2.predicted = "note" := by
  simp +decide [processRow, hdoc, hnote, hpred, hidx.ne']

theorem c5_note_after_note_header_witness :
    (processRow (fun _ => ("step", 1/2)) ⟨some "doc", "Notes:", none⟩
        ⟨"doc", 3, "Store in the fridge.", "note"⟩).2.predicted = "note" :=
  c5_note_after_note_header (fun _ => ("step", 1/2)) _ _ rfl (by decide)
    (by with_unfolding_all decide) (by decide)

/-- Rule-engine-backed prediction stub for the C5 counterexample. -/
def c5predict (t : String) : String × ℚ :=
  (ruleBasedLabel t).getD ("junk", 0)

/-- The C5 counterexample document: two consecutive note-style header
lines. -/
def c5rows : List PredRow :=
  [⟨"doc", 0, "Notes:", "header"⟩, ⟨"doc", 1, "Storage:", "header"⟩]

theorem c5_counterexample :
    looksLikeNoteHeader "Notes:" = true ∧
    ((runPredictions c5predict c5rows).map (fun p => p.predicted)) =
      ["header", "header"] := by
  with_unfolding_all decide


/-! ### C6: range ingredient parsing -/

/-- Amended C6 range rule: the stored bounds are `round(·, 4)` of the
parsed min/max, not the parsed values themselves. -/
theorem c6_range_parse (raw : String) (g : Groups) (lv uv : ℚ) (u : String)
    (hguard : numberedInstructionGuard (ingredientCleaned raw) = false)
    (hmatch : reMatch rangePattern (ingredientCleaned raw).toList = some g)
    (hlow : parseQuantityValue ⟨pyStripL ((groupOf g 1).getD [])⟩ = some lv)
    (hup : parseQuantityValue ⟨pyStripL ((groupOf g 2).getD [])⟩ = some uv)
    (hunit : parseUnitToken ⟨pyStripL ((groupOf g 3).getD [])⟩ = some u)
    (hrem : cleanText ⟨(groupOf g 4).getD []⟩ ≠ "") :
    parseIngredientText raw =
      (cleanText ⟨(groupOf g 4).getD []⟩,
       some ⟨pyRound4 (min lv uv), some (pyRound4 (max lv uv)), u⟩, [], none) := by
  have hr : parseRangeIngredient (ingredientCleaned raw) =
      some (cleanText ⟨(groupOf g 4).getD []⟩,
        some ⟨pyRound4 (min lv uv), some (pyRound4 (max lv uv)), u⟩, [], none) := by
    unfold parseRangeIngredient
    rw [hmatch]
    dsimp only []
    rw [hlow, hup, hunit]
    dsimp only []
    rw [if_neg hrem]
    rfl
  unfold parseIngredientText
  dsimp only []
  rw [hguard, hr]
  rfl

section
attribute [local semireducible] Rat.add Rat.mul Rat.inv Rat.sub Rat.ofScientific

theorem c6_range_parse_witness :
    parseIngredientText "3 to 4 cloves garlic, minced" =
      ("garlic, minced", some ⟨3, some 4, "clove"⟩, [], none) := by
  rw [c6_range_parse "3 to 4 cloves garlic, minced"
    [(4, "garlic, minced".toList), (3, "cloves".toList),
     (2, "4".toList), (1, "3 ".toList)] 3 4 "clove"
    (by decide) (by decide) (by decide) (by decide) (by decide) (by decide)]
  decide

theorem c6_counterexample :
    parseQuantityValue "1/3" = some (1/3) ∧
    parseQuantityValue "1/2" = some (1/2) ∧
    parseIngredientText "1/3 to 1/2 cup milk" =
      ("milk", some ⟨3333/10000, some (1/2), "cup"⟩, [], none) ∧
    (3333/10000 : ℚ) ≠ min (1/3 : ℚ) (1/2) := by
  refine ⟨?_, ?_, ?_, ?_⟩ <;> decide

end


/-! ### C7: title and yields invariants -/

theorem yields_addIngredient (s : AsmState) (text : String)
    (sec : Option String) :
    (addIngredient s text sec).extractedYields = s.extractedYields := by
  unfold addIngredient
  rcases hpi : parseIngredientText text with ⟨n, q, aq, nt⟩
  by_cases h : shouldDropIngredientEntry (sanitizeIngredientName n) q <;>
    simp [h]

theorem yields_addStep (s : AsmState) (text : String) (sec : Option String) :
    (addStep s text sec).extractedYields = s.extractedYields := by
  unfold addStep
  dsimp only []
  split
  · rfl
  · split <;> rfl

theorem yields_appendNote (s : AsmState) (noteLine : String) :
    (appendNote s noteLine).extractedYields = s.extractedYields := by
  unfold appendNote
  split <;> rfl

theorem yields_applyMetadata (s : AsmState) (md : Metadata)
    (h : md.yields = none) :
    (applyMetadata s md).extractedYields = s.extractedYields := by
  unfold applyMetadata
  rw [h]
  cases htm : md.totalMinutes <;> cases hpm : md.prepMinutes <;>
    cases hcm : md.cookMinutes <;> simp [htm, hpm, hcm]

theorem yields_addStep_foldl (l : List String) (s : AsmState) :
    (l.foldl (fun acc t => addStep acc t acc.currentStepSection)
      s).extractedYields = s.extractedYields := by
  induction l generalizing s with
  | nil => rfl
  | cons a t ih => rw [List.foldl_cons, ih, yields_addStep]

theorem yields_asmTitleRow (s : AsmState) (text : String) :
    (asmTitleRow s text).extractedYields = s.extractedYields := by
  unfold asmTitleRow
  split <;> rfl

theorem yields_asmHeaderRow (s : AsmState) (text : String) :
    (asmHeaderRow s text).extractedYields = s.extractedYields := by
  unfold asmHeaderRow
  repeat'
    first
    | (with_reducible rfl)
    | (rw [yields_addStep])
    | (rw [yields_addIngredient])
    | split

theorem yields_asmIngredientRow (s : AsmState) (text : String) :
    (asmIngredientRow s text).extractedYields = s.extractedYields := by
  unfold asmIngredientRow
  repeat'
    first
    | (with_reducible rfl)
    | (rw [yields_addStep])
    | (rw [yields_addIngredient])
    | (rw [yields_appendNote])
    | split

theorem yields_asmStepRow (s : AsmState) (text : String) :
    (asmStepRow s text).extractedYields = s.extractedYields := by
  unfold asmStepRow
  repeat'
    first
    | (with_reducible rfl)
    | (rw [yields_addStep_foldl])
    | (rw [yields_appendNote])
    | split

theorem yields_asmNoteRow (s : AsmState) (text : String) :
    (asmNoteRow s text).extractedYields = s.extractedYields := by
  unfold asmNoteRow
  repeat'
    first
    | (with_reducible rfl)
    | (rw [yields_addStep])
    | (rw [yields_appendNote])
    | split

theorem yields_asmFallbackRow (s : AsmState) (text label : String) :
    (asmFallbackRow s text label).extractedYields = s.extractedYields := by
  unfold asmFallbackRow
  repeat'
    first
    | (with_reducible rfl)
    | split

set_option maxHeartbeats 4000000 in
theorem yields_asmProcessRow (s : AsmState) (row : Row)
    (hmd : ∀ md, extractMetadataLine (cleanText row.text) = some md →
      md.yields = none) :
    (asmProcessRow s row).extractedYields = s.extractedYields := by
  unfold asmProcessRow
  dsimp only []
  repeat'
    first
    | (with_reducible rfl)
    | (rw [yields_asmTitleRow])
    | (rw [yields_asmHeaderRow])
    | (rw [yields_asmIngredientRow])
    | (rw [yields_asmStepRow])
    | (rw [yields_asmNoteRow])
    | (rw [yields_asmFallbackRow])
    | (rw [yields_appendNote])
    | (exact yields_applyMetadata _ _ (hmd _ (by assumption)))
    | split


theorem yields_foldl_none (rows : List Row) (s : AsmState)
    (h : ∀ row ∈ rows, ∀ md,
      extractMetadataLine (cleanText row.text) = some md → md.yields = none)
    (hs : s.extractedYields = none) :
    (rows.foldl asmProcessRow s).extractedYields = none := by
  induction rows generalizing s with
  | nil => exact hs
  | cons a t ih =>
    rw [List.foldl_cons]
    refine ih _ (fun row hr md hmd => h row (List.mem_cons_of_mem a hr) md hmd) ?_
    rw [yields_asmProcessRow _ _ (h a (List.mem_cons_self a t))]
    exact hs

theorem untitled_ne (t2 : String) :
    (if (if t2 = "" then "Untitled Recipe" else t2) = "" then "Untitled Recipe"
     else (if t2 = "" then "Untitled Recipe" else t2)) ≠ "" := by
  by_cases h : t2 = "" <;> simp [h]

/-- C7: the assembled title is never empty (the fallback chain bottoms
out at "Untitled Recipe"), and when no row recovers a yields metadata
value the yields field defaults to "4 servings". -/
theorem c7_title_yields (rows : List Row) (u t : String)
    (h : ∀ row ∈ rows, ∀ md,
      extractMetadataLine (cleanText row.text) = some md → md.yields = none) :
    (assembleAppRecipe rows u t).title ≠ "" ∧
    (assembleAppRecipe rows u t).yields = "4 servings" := by
  constructor
  · unfold assembleAppRecipe
    dsimp only []
    exact untitled_ne _
  · unfold assembleAppRecipe
    dsimp only []
    rw [yields_foldl_none rows _ h rfl]

theorem c7_title_yields_witness :
    (assembleAppRecipe [] "" "").title ≠ "" ∧
    (assembleAppRecipe [] "" "").yields = "4 servings" :=
  c7_title_yields [] "" "" (fun row hr => absurd hr (List.not_mem_nil row))


end Cauldron
